import Mathlib

/-!
A shallow embedding of the `render` template engine of go-seatbelt/seatbelt
(src/render/render.go), of the earlier render iteration kept in the repository
(src/unnamed/part_006), and of the request-value merging of src/seatbelt.go.

Modelling conventions:
* Go maps keyed by strings are modelled as insertion-ordered association
  lists (`AList`).  Go's map iteration order is unspecified; the model fixes
  insertion order wherever the code iterates a map (`DefinedTemplates`,
  the layout loop of `parseTemplates`).  No claim depends on a particular
  iteration order.
* `html/template` (the Go standard library, an external collaborator of this
  repository) is modelled by `Template`: a set of named definitions plus a
  function map.  `Clone` is a deep copy (the identity on immutable values),
  `ParseFS` adds the parsed file's definitions, overriding same-named ones,
  and `Funcs` adds entries to the function map, overriding same-named ones,
  exactly as documented for the library.  A template body is a list of
  nodes: literal text, invocation of an associated template by name, or a
  call to a named function.  Execution is a fuel-bounded interpreter; data
  substitution (`{{.field}}`) is not modelled because no claim depends on it,
  so the `data` argument is tracked but not consulted by execution.
* A source file is modelled together with the result of parsing its text:
  either the list of template definitions it contains (the implicit
  definition named after the file plus its `define` blocks) or a parse error.
* Panics are modelled as an explicit `panicked` outcome; `sync.Mutex` state
  is a `locked` flag on the renderer; writes to the response writer are an
  event trace.
* The byte-buffer pool of `Render` has no observable semantics (the buffer
  is `Reset` after `Get`) and is not modelled.  The distinction between a
  nil and an empty Go slice of factories is not observable in this code and
  both are modelled as `[]`.  The model assumes the walked directories
  exist; only files are visited, in lexical (walk) order.
-/

namespace Seatbelt

/-! ### Association lists (Go maps with insertion order fixed) -/

abbrev AList (α : Type) := List (String × α)

def alookup {α : Type} : AList α → String → Option α
  | [], _ => none
  | (k, v) :: rest, key => if k = key then some v else alookup rest key

/-- Insert or update: an existing key is updated in place, a new key is
appended (the model's stand-in for Go map insertion). -/
def aset {α : Type} : AList α → String → α → AList α
  | [], key, v => [(key, v)]
  | (k, w) :: rest, key, v =>
    if k = key then (k, v) :: rest else (k, w) :: aset rest key v

def akeys {α : Type} (m : AList α) : List String := m.map Prod.fst

/-- Fold a list of bindings into a map, later bindings overriding earlier
ones (the semantics of `template.Funcs` and of successive `Parse` calls). -/
def asetAll {α : Type} (acc : AList α) (l : AList α) : AList α :=
  l.foldl (fun a kv => aset a kv.1 kv.2) acc

/-! ### Strings: the path helpers used by `extractNameFromPath` -/

def sdrop (s : String) (n : Nat) : String := ⟨s.data.drop n⟩

def sdropRight (s : String) (n : Nat) : String := ⟨s.data.take (s.data.length - n)⟩

def sStartsWith (s p : String) : Bool := p.data.isPrefixOf s.data

/-- `strings.Replace(name, "\\", "/", -1)`: for a one-character pattern this
is a character map. -/
def slashNormalize (s : String) : String :=
  ⟨s.data.map (fun c => if c = '\\' then '/' else c)⟩

/-- `strings.Join(l, sep)`. -/
def sjoin (sep : String) : List String → String
  | [] => ""
  | x :: xs => xs.foldl (fun acc y => acc ++ sep ++ y) x

/-- The final path element (after the last `/`), as used by `filepath.Ext`. -/
def lastElem (s : String) : String :=
  ⟨(s.data.reverse.takeWhile (fun c => c ≠ '/')).reverse⟩

/-- `filepath.Ext`: the suffix of the final path element starting at its
last dot; empty when the final element has no dot. -/
def extOf (s : String) : String :=
  let e := lastElem s
  if e.data.contains '.' then
    ⟨'.' :: (e.data.reverse.takeWhile (fun c => c ≠ '.')).reverse⟩
  else ""

/-- `filepath.Rel(rootDir, path)` for the two shapes the code uses: the
root `"."` (identity) and a directory prefix such as `"layouts"`. -/
def relPath (rootDir p : String) : String :=
  if rootDir = "." then p else sdrop p (rootDir.length + 1)

/-- `extractNameFromPath` (render.go lines 64-87).  The Go function panics
when the extension is not `.html`; the panic is modelled as `.error`. -/
def extractNameFromPath (rootDir p : String) (replaceSlash : Bool) :
    Except String String :=
  let rel := relPath rootDir p
  let ext := if rel.data.contains '.' then extOf rel else ""
  if ext = ".html" then
    let name := sdropRight rel ext.length
    .ok (if replaceSlash then slashNormalize name else name)
  else
    .error ("seatbelt/render: template " ++ p ++ " must end in .html, got " ++ ext)

/-! ### Templates (the model of `html/template`) -/

/-- One node of a parsed template body. -/
inductive Node where
  | text (s : String)
  | execT (name : String)
  | callF (fname : String)
  deriving DecidableEq

abbrev Body := List Node

abbrev Defs := AList Body

/-- A template function implementation, identified by the string it yields
when invoked. -/
structure FuncImpl where
  out : String
  deriving DecidableEq

abbrev FuncMap := AList FuncImpl

/-- The model of a `*template.Template`: its associated named definitions
and its function map. -/
structure Template where
  defs : Defs
  funcs : FuncMap
  deriving DecidableEq

/-- `Template.Clone`: a duplicate sharing nothing mutable with the
original; the identity on immutable model values. -/
def Template.clone (t : Template) : Template := t

/-- `Template.Funcs(m)`: adds the entries of `m`, overriding same-named
entries. -/
def Template.addFuncs (t : Template) (m : FuncMap) : Template :=
  { t with funcs := asetAll t.funcs m }

/-- Parsing a file into a template (`ParseFS`): the file's definitions are
added, redefining same-named associated templates. -/
def Template.parseDefs (t : Template) (ds : Defs) : Template :=
  { t with defs := asetAll t.defs ds }

instance {ε α : Type} [DecidableEq ε] [DecidableEq α] : DecidableEq (Except ε α) := by
  intro x y
  cases x <;> cases y
  case error.error a b | ok.ok a b =>
    exact if h : a = b then .isTrue (by rw [h]) else .isFalse (by simp [h])
  all_goals exact .isFalse (by simp)

def execFuel : Nat := 128

/-- Fuel-bounded execution of a template body: every recursive step
(nested template invocation or advancing within a body) consumes fuel; a
missing associated template or function is an execution error, as in
`html/template`. -/
def execNode (t : Template) (execB : Body → Except String String) :
    Node → Except String String
  | .text s => .ok s
  | .execT nm =>
    match alookup t.defs nm with
    | none => .error ("template: no such template \"" ++ nm ++ "\"")
    | some b => execB b
  | .callF f =>
    match alookup t.funcs f with
    | none => .error ("template: function \"" ++ f ++ "\" not defined")
    | some impl => .ok impl.out

def execBody (t : Template) : Nat → Body → Except String String
  | _, [] => .ok ""
  | 0, _ :: _ => .error "template: maximal template depth exceeded"
  | fuel + 1, node :: rest =>
    match execNode t (execBody t fuel) node with
    | .error e => .error e
    | .ok s =>
      match execBody t fuel rest with
      | .error e => .error e
      | .ok s2 => .ok (s ++ s2)

/-- `ExecuteTemplate(w, nm, data)`: execute the associated template named
`nm` (the undefined-name message is the one the repository's own test
asserts on). -/
def Template.executeTemplate (t : Template) (nm : String) : Except String String :=
  match alookup t.defs nm with
  | none => .error ("html/template: \"" ++ nm ++ "\" is undefined")
  | some b => execBody t execFuel b

/-! ### The filesystem and the renderer state -/

/-- A source file's parse result: its definitions, or a template parse
error. -/
inductive FileContent where
  | ok (ds : Defs)
  | parseError (msg : String)
  deriving DecidableEq

/-- The template directory: files in walk (lexical) order, paths relative
to the directory root with `/` separators. -/
structure FS where
  files : List (String × FileContent)
  deriving DecidableEq

def FS.read (fs : FS) (p : String) : Option FileContent := alookup fs.files p

/-- Replace the content stored at path `p` (the path set is unchanged). -/
def FS.withFile (fs : FS) (p : String) (c : FileContent) : FS :=
  ⟨fs.files.map (fun pc => if pc.1 = p then (pc.1, c) else pc)⟩

/-- A `ContextualFuncMap` factory, modelled by the function map it returns;
`none` is a nil factory.  The names it declares are the same at parse time
(`fn(nil, nil)`) and at render time. -/
abbrev Factory := FuncMap

/-- The no-op placeholder installed before parsing
(`func() struct{} { return struct{}{} }`). -/
def noopImpl : FuncImpl := ⟨""⟩

/-- The placeholder function map of `parseTemplates` (lines 105-115): every
name declared by any non-nil factory, mapped to the no-op. -/
def noopFuncMap (funcs : List (Option Factory)) : FuncMap :=
  funcs.foldl
    (fun acc f =>
      match f with
      | none => acc
      | some m => m.foldl (fun acc2 kv => aset acc2 kv.1 noopImpl) acc)
    []

/-- `template.New("layout")` with the placeholder functions attached. -/
def baseTemplate (funcs : List (Option Factory)) : Template :=
  { defs := [], funcs := noopFuncMap funcs }

/-- layout name → composed layout clone → content name → composed template. -/
abbrev Tpls := AList (AList Template)

def alookup2 (t : Tpls) (layoutName name : String) : Option Template :=
  (alookup t layoutName).bind (fun m => alookup m name)

/-- The cache update of render.go lines 186-192. -/
def set2 (t : Tpls) (layoutName name : String) (tpl : Template) : Tpls :=
  match alookup t layoutName with
  | some m => aset t layoutName (aset m name tpl)
  | none => aset t layoutName [(name, tpl)]

/-- Outcome of the layout walk: the map of layout clones, an error
(returned to the caller), or a panic from `extractNameFromPath`. -/
inductive LOut where
  | ok (lm : AList Template)
  | err (msg : String)
  | panicked (msg : String)
  deriving DecidableEq

/-- Outcome of the content walk; an error carries the cache as mutated so
far, because the walk updates `r.tpls` in place file by file. -/
inductive POut where
  | ok (t : Tpls)
  | err (msg : String) (t : Tpls)
  | panicked (msg : String)
  deriving DecidableEq

/-- The layout walk of `parseTemplates` (lines 124-157).  `basetpl`
accumulates each layout's definitions as the walk proceeds (the code
parses every layout file into the one base template); each layout's clone
is taken at that point and the layout file is parsed into it again. -/
def layoutFold (fs : FS) :
    Template → AList Template → List (String × FileContent) → LOut
  | _, lm, [] => .ok lm
  | basetpl, lm, (path, _) :: rest =>
    match extractNameFromPath "layouts" path false with
    | .error msg => .panicked msg
    | .ok layoutName =>
      match fs.read ("layouts/" ++ layoutName ++ ".html") with
      | none => .err ("template: pattern matches no files: layouts/" ++ layoutName ++ ".html")
      | some (.parseError msg) => .err msg
      | some (.ok ds) =>
        let basetpl2 := basetpl.parseDefs ds
        let clone := basetpl2.clone
        layoutFold fs basetpl2 (aset lm layoutName (clone.parseDefs ds)) rest

/-- Parse one content file into a fresh clone of every layout
(lines 175-193). -/
def setAll (lm : AList Template) (t : Tpls) (name : String) (ds : Defs) : Tpls :=
  lm.foldl (fun acc kv => set2 acc kv.1 name (kv.2.clone.parseDefs ds)) t

/-- The content walk of `parseTemplates` (lines 159-196): every file under
the root, with the layouts subtree skipped by name. -/
def contentFold (lm : AList Template) : Tpls → List (String × FileContent) → POut
  | t, [] => .ok t
  | t, (path, c) :: rest =>
    match extractNameFromPath "." path true with
    | .error msg => .panicked msg
    | .ok n =>
      if sStartsWith n "layouts" then contentFold lm t rest
      else
        match c with
        | .parseError msg =>
          .err ("seatbelt/render: failed to parse template " ++ n ++ " at path " ++ path ++ ": " ++ msg) t
        | .ok ds => contentFold lm (setAll lm t n ds) rest

/-- `(*Render).parseTemplates` (lines 89-197), updating the existing cache
`tpls` from the directory `fs`. -/
def parseTemplates (funcs : List (Option Factory)) (tpls : Tpls) (fs : FS) : POut :=
  match layoutFold fs (baseTemplate funcs) []
      (fs.files.filter (fun pc => sStartsWith pc.1 "layouts/")) with
  | .err msg => .err msg tpls
  | .panicked msg => .panicked msg
  | .ok lm => contentFold lm tpls fs.files

/-! ### The renderer -/

structure Render where
  tpls : Tpls
  funcs : List (Option Factory)
  reload : Bool
  locked : Bool
  deriving DecidableEq

/-- `render.New` (lines 41-60): parses eagerly under the lock and panics on
failure; a panic is modelled as `none`. -/
def Render.new (funcs : List (Option Factory)) (reload : Bool) (fs : FS) :
    Option Render :=
  match parseTemplates funcs [] fs with
  | .ok t => some { tpls := t, funcs := funcs, reload := reload, locked := false }
  | _ => none

structure RenderOptions where
  statusCode : Nat
  layout : String
  deriving DecidableEq

/-- `RenderOptions.setDefaults` (lines 204-211). -/
def RenderOptions.setDefaults (o : RenderOptions) : RenderOptions :=
  { statusCode := if o.statusCode = 0 then 200 else o.statusCode,
    layout := if o.layout = "" then "layout" else o.layout }

/-- One observable action on the output sink. -/
inductive WEvent where
  | setHeader (k v : String)
  | writeHeader (status : Nat)
  | write (s : String)
  deriving DecidableEq

/-- `TextError` (lines 214-222): headers, status, then the body; header and
status writes happen only on a response-capable sink. -/
def textErrorEvents (isRW : Bool) (msg : String) (code : Nat) : List WEvent :=
  if isRW then
    [.setHeader "Content-Type" "text/plain; charset=utf-8",
     .setHeader "X-Content-Type-Options" "nosniff",
     .setHeader "Content-Length" (toString msg.length),
     .writeHeader code,
     .write msg]
  else [.write msg]

/-- The success path of `HTML` (lines 315-321). -/
def successEvents (isRW : Bool) (status : Nat) (body : String) : List WEvent :=
  if isRW then
    [.setHeader "Content-Type" "text/html", .writeHeader status, .write body]
  else [.write body]

/-- `DefinedTemplates` (lines 227-245): all layout names, then the content
names of the first layout iterated (insertion order in the model). -/
def definedTemplates (t : Tpls) : String :=
  "layouts: " ++ sjoin "," (akeys t) ++ ", templates: " ++
    sjoin "," (match t with | [] => [] | (_, m) :: _ => akeys m)

/-- Func attachment at render time (lines 295-306): each non-nil factory's
map is added to the selected template in registration order, later entries
overriding earlier ones per `template.Funcs`. -/
def attachFuncs (t : Template) (fs : List (Option Factory)) : Template :=
  fs.foldl
    (fun acc of =>
      match of with
      | none => acc
      | some m => acc.addFuncs m)
    t

def noLayoutMsg (t : Tpls) (name : String) : String :=
  "seatbelt/template: no layout named \"" ++ name ++ "\", defined templates are: " ++
    definedTemplates t

def noTemplateMsg (t : Tpls) (name : String) : String :=
  "seatbelt/render: no template named \"" ++ name ++ "\", defined templates are: " ++
    definedTemplates t

def execFailLog (name layoutName err defined : String) : String :=
  "seatbelt/render: Failed to execute template " ++ name ++ " with layout " ++
    layoutName ++ " and error: " ++ err ++ ". Defined templates are: " ++ defined

/-- The observable result of one `HTML` call: the output events, the log
lines, a panic message when the call panics, and the renderer state after
the call (cache and lock included). -/
structure HtmlOut where
  events : List WEvent
  logs : List String
  panicMsg : Option String
  st : Render
  deriving DecidableEq

/-- Lines 267-321 of `HTML`, after the reload block: `r1` has the rebuild
lock released; the second lock is taken in reload mode for the lookup.
The `data` map is tracked (nil becomes an empty map, lines 289-291) but
execution does not consult it. -/
def Render.htmlAfterReload {α : Type} (r1 : Render) (isRW hasReq : Bool)
    (name : String) (data : Option (AList α)) (o : RenderOptions) : HtmlOut :=
  let r2 := if r1.reload then { r1 with locked := true } else { r1 with locked := false }
  match alookup r2.tpls o.layout with
  | none =>
    { events := textErrorEvents isRW (noLayoutMsg r2.tpls name) 500,
      logs := [], panicMsg := none, st := r2 }
  | some layoutMap =>
    let r3 := if r2.reload then { r2 with locked := false } else r2
    match alookup layoutMap name with
    | none =>
      { events := textErrorEvents isRW (noTemplateMsg r3.tpls name) 500,
        logs := [], panicMsg := none, st := r3 }
    | some tpl =>
      let _data' := data.getD []
      let tpl2 := if isRW && hasReq then attachFuncs tpl r3.funcs else tpl
      let r4 := if isRW && hasReq then { r3 with tpls := set2 r3.tpls o.layout name tpl2 } else r3
      match tpl2.executeTemplate (o.layout ++ ".html") with
      | .error e =>
        { events := textErrorEvents isRW e 500,
          logs := [execFailLog name o.layout e (definedTemplates r4.tpls)],
          panicMsg := none, st := r4 }
      | .ok out =>
        { events := successEvents isRW o.statusCode out,
          logs := [], panicMsg := none, st := r4 }

/-- `(*Render).HTML` (lines 250-322).  `fs` is the directory state at call
time; `isRW` says whether the sink is an `http.ResponseWriter`; `hasReq`
whether a request was supplied. -/
def Render.html {α : Type} (r : Render) (fs : FS) (isRW hasReq : Bool)
    (name : String) (data : Option (AList α)) (opts : List RenderOptions) :
    HtmlOut :=
  let o := (opts.foldl (fun _ x => x) ⟨0, ""⟩).setDefaults
  match (if r.reload then parseTemplates r.funcs r.tpls fs else .ok r.tpls) with
  | .panicked msg =>
    { events := [], logs := [], panicMsg := some msg, st := { r with locked := true } }
  | .ok t => Render.htmlAfterReload { r with tpls := t } isRW hasReq name data o
  | .err _ t => Render.htmlAfterReload { r with tpls := t } isRW hasReq name data o

/-! ### The earlier render iteration (src/unnamed/part_006) -/

/-- One entry of part_006's func-map merge: an already-present name is kept
(first registration wins) and a warning is printed; a new name is added. -/
def mergedStep (st : FuncMap × List String) (kv : String × FuncImpl) :
    FuncMap × List String :=
  if (alookup st.1 kv.1).isSome then
    (st.1, st.2 ++ ["[warning] seatbelt/render.HTML: func " ++ kv.1 ++ " overrides existing func"])
  else (aset st.1 kv.1 kv.2, st.2)

/-- The func-map merge of part_006's `HTML` (lines 139-154): first
registration wins and each shadowed name produces a printed warning. -/
def mergedFuncMap (fs : List (Option Factory)) : FuncMap × List String :=
  fs.foldl
    (fun acc of =>
      match of with
      | none => acc
      | some m => m.foldl mergedStep acc)
    ([], [])

/-! ### Request-scoped value merging (src/seatbelt.go) -/

/-- `(*Context).mergeValues` (seatbelt.go lines 117-132).  `none` models a
nil Go map.  Keys of the value bag absent from `data` are added; `data`
entries are never overwritten. -/
def mergeValues {α : Type} (values data : Option (AList α)) : Option (AList α) :=
  match values with
  | none => data
  | some vs =>
    match data with
    | none => some vs
    | some d =>
      some (vs.foldl
        (fun acc kv => if (alookup acc kv.1).isSome then acc else aset acc kv.1 kv.2)
        d)

/-- `(*Context).Render` (seatbelt.go lines 146-149): the renderer receives
the merged data. -/
def contextRender {α : Type} (r : Render) (values : Option (AList α)) (fs : FS)
    (isRW hasReq : Bool) (name : String) (data : Option (AList α))
    (opts : List RenderOptions) : HtmlOut :=
  r.html fs isRW hasReq name (mergeValues values data) opts

/-! ### Derived notions used to state the claims -/

/-- String containment as list-of-bytes infix, the sense in which an error
body "contains" a name. -/
def strContainsB (hay needle : String) : Prop := needle.data <:+: hay.data

instance (hay needle : String) : Decidable (strContainsB hay needle) := by
  unfold strContainsB; infer_instance

/-- The contribution of one walked file to the content template of name
`A`: its definitions when it is a non-layout `.html` file of that name. -/
def fileDefsFor (A : String) (pc : String × FileContent) : Option Defs :=
  match extractNameFromPath "." pc.1 true with
  | .error _ => none
  | .ok n =>
    if sStartsWith n "layouts" then none
    else if n = A then
      (match pc.2 with | .ok ds => some ds | .parseError _ => none)
    else none

/-- The definitions of the last walked file of content name `A` (the walk
overwrites earlier same-named entries). -/
def lastContentDefs (files : List (String × FileContent)) (A : String) : Option Defs :=
  files.foldr (fun pc acc => acc.orElse (fun _ => fileDefsFor A pc)) none

/-- Whether `extractNameFromPath` succeeds (its failure is a Go panic). -/
def extOk (rootDir p : String) (rs : Bool) : Bool :=
  match extractNameFromPath rootDir p rs with
  | .ok _ => true
  | .error _ => false

/-- Every file in the directory passes the extension check of both walks:
the condition under which a reload-mode rebuild cannot panic. -/
def FS.noPanicFiles (fs : FS) : Bool :=
  fs.files.all (fun pc =>
    extOk "." pc.1 true && (!(sStartsWith pc.1 "layouts/") || extOk "layouts" pc.1 false))

/-- Lookup through an optional (possibly nil) Go map. -/
def mlookup {α : Type} (m : Option (AList α)) (k : String) : Option α :=
  m.bind (fun l => alookup l k)

/-! ### Concrete fixtures used by counterexamples and witnesses -/

/-- A minimal template directory: one layout (`layouts/layout.html`,
invoking the `content` block) and one content file (`index.html`,
redefining `content`), walked in lexical order. -/
def fsBase : FS := ⟨[
  ("index.html", .ok [("index.html", [.text "<p>hi</p>"]),
                      ("content", [.text "<p>hi</p>"])]),
  ("layouts/layout.html", .ok [("layout.html", [.text "<html>", .execT "content", .text "</html>"]),
                               ("content", [.text "default"])])]⟩

/-- `fsBase` with a second content file `about.html`. -/
def fsTwo : FS := ⟨[
  ("about.html", .ok [("about.html", [.text "<p>about</p>"]),
                      ("content", [.text "<p>about</p>"])]),
  ("index.html", .ok [("index.html", [.text "<p>hi</p>"]),
                      ("content", [.text "<p>hi</p>"])]),
  ("layouts/layout.html", .ok [("layout.html", [.text "<html>", .execT "content", .text "</html>"]),
                               ("content", [.text "default"])])]⟩

/-- `fsBase` plus a file with a disallowed extension. -/
def fsBadExt : FS := ⟨fsBase.files ++ [("notes.txt", .ok [])]⟩

/-- The message the code actually produces for
`HTML(w, req, "index", nil, {Layout: "missing"})` over `fsBase`: the
content name, not the layout name, is interpolated. -/
def msgNoLayout : String :=
  "seatbelt/template: no layout named \"index\", defined templates are: layouts: layout, templates: index"

/-- A reload-mode renderer whose cache starts empty. -/
def rReload : Render := { tpls := [], funcs := [], reload := true, locked := false }

/-- The composed template for (`layout`, `index`) that parsing `fsBase`
produces: the layout's definitions with the content file's overlaid. -/
def tplComposed : Template :=
  { defs := [("layout.html", [.text "<html>", .execT "content", .text "</html>"]),
             ("content", [.text "<p>hi</p>"]),
             ("index.html", [.text "<p>hi</p>"])],
    funcs := [] }

/-- A static-mode renderer holding the `fsBase` cache. -/
def rStatic : Render :=
  { tpls := [("layout", [("index", tplComposed)])], funcs := [],
    reload := false, locked := false }

/-- A template whose layout body calls the template function `f`. -/
def tplCallsF : Template :=
  { defs := [("layout.html", [.callF "f"])], funcs := [] }

/-- A renderer with two factories that both declare `f`. -/
def rTwoFactories : Render :=
  { tpls := [("layout", [("index", tplCallsF)])],
    funcs := [some [("f", ⟨"ONE"⟩)], some [("f", ⟨"TWO"⟩)]],
    reload := false, locked := false }

/-- A template whose layout body invokes an undefined associated template,
so execution fails. -/
def tplBadExec : Template :=
  { defs := [("layout.html", [.text "<x>", .execT "nope"])], funcs := [] }

/-- A static-mode renderer whose only template fails at execution. -/
def rBadExec : Render :=
  { tpls := [("layout", [("boom", tplBadExec)])], funcs := [],
    reload := false, locked := false }

/-- The layout-clone map the layout walk of `fsTwo` produces. -/
def lmTwo : AList Template :=
  match layoutFold fsTwo (baseTemplate []) []
      (fsTwo.files.filter (fun pc => sStartsWith pc.1 "layouts/")) with
  | .ok lm => lm
  | _ => []

/-- The clone of `fsTwo`'s layout. -/
def ltplTwo : Template := (alookup lmTwo "layout").getD ⟨[], []⟩

/-- The cache the content walk of `fsTwo` builds from an empty cache. -/
def tfTwo : Tpls :=
  match contentFold lmTwo [] fsTwo.files with
  | .ok t => t
  | _ => []

/-- The parsed definitions of `fsTwo`'s `about.html`. -/
def dsAbout : Defs := (lastContentDefs fsTwo.files "about").getD []

/-- The renderer a successful `New` over `fsTwo` (static mode) returns. -/
def rNewTwo : Render := (Render.new [] false fsTwo).getD rReload

/-- The renderer a successful `New` over `fsBase` (static mode) returns:
its cache predates the addition of `about.html`. -/
def rNewBase : Render := (Render.new [] false fsBase).getD rReload

/-- A replacement text for `about.html` (used to check isolation). -/
def cChanged : FileContent :=
  .ok [("about.html", [.text "CHANGED"]), ("content", [.text "CHANGED"])]

/-- The cache built from `fsTwo` with `about.html`'s text replaced. -/
def tfTwoB : Tpls :=
  match parseTemplates [] [] (fsTwo.withFile "about.html" cChanged) with
  | .ok t => t
  | _ => []

/-! ## Lemmas: association-list algebra -/

theorem alookup_aset_self {α : Type} (m : AList α) (k : String) (v : α) :
    alookup (aset m k v) k = some v := by
  induction m with
  | nil => simp [aset, alookup]
  | cons kv rest ih =>
    obtain ⟨k0, w⟩ := kv
    by_cases h : k0 = k
    · simp [aset, alookup, h]
    · simp [aset, alookup, h, ih]

theorem alookup_aset_other {α : Type} (m : AList α) (k k' : String) (v : α)
    (h : k' ≠ k) : alookup (aset m k v) k' = alookup m k' := by
  have h' : ¬ k = k' := fun hh => h hh.symm
  induction m with
  | nil => simp [aset, alookup, h']
  | cons kv rest ih =>
    obtain ⟨k0, w⟩ := kv
    by_cases h0 : k0 = k
    · subst h0
      simp [aset, alookup, h']
    · simp only [aset, if_neg h0, alookup]
      by_cases h1 : k0 = k'
      · simp [h1]
      · simp [h1, ih]

theorem akeys_aset_of_mem {α : Type} (m : AList α) (k : String) (v w : α)
    (h : alookup m k = some w) : akeys (aset m k v) = akeys m := by
  induction m with
  | nil => simp [alookup] at h
  | cons kv rest ih =>
    obtain ⟨k0, w0⟩ := kv
    by_cases h0 : k0 = k
    · simp [aset, h0, akeys]
    · simp only [alookup, if_neg h0] at h
      have := ih h
      simp only [akeys] at this
      simp [aset, h0, akeys, this]

theorem aset_eq_of_lookup {α : Type} (m : AList α) (k : String) (v : α)
    (h : alookup m k = some v) : aset m k v = m := by
  induction m with
  | nil => simp [alookup] at h
  | cons kv rest ih =>
    obtain ⟨k0, w0⟩ := kv
    by_cases h0 : k0 = k
    · subst h0
      have h' : w0 = v := by simpa [alookup] using h
      simp [aset, h']
    · simp only [alookup, if_neg h0] at h
      simp [aset, h0, ih h]

theorem aset_aset_same {α : Type} (m : AList α) (k : String) (v w : α) :
    aset (aset m k v) k w = aset m k w := by
  induction m with
  | nil => simp [aset]
  | cons kv rest ih =>
    obtain ⟨k0, w0⟩ := kv
    by_cases h0 : k0 = k
    · simp [aset, h0]
    · simp [aset, h0, ih]

theorem alookup_eq_none_iff {α : Type} (m : AList α) (k : String) :
    alookup m k = none ↔ k ∉ akeys m := by
  induction m with
  | nil => simp [alookup, akeys]
  | cons kv rest ih =>
    obtain ⟨k0, w0⟩ := kv
    have h2 : (k ∈ akeys ((k0, w0) :: rest)) ↔ (k = k0 ∨ k ∈ akeys rest) := by
      simp [akeys]
    by_cases h0 : k0 = k
    · subst h0
      simp [alookup, h2]
    · have h0' : ¬ k = k0 := fun hh => h0 hh.symm
      simp [alookup, h0, h2, h0', ih]

theorem akeys_aset {α : Type} (m : AList α) (k : String) (v : α) :
    akeys (aset m k v) = if k ∈ akeys m then akeys m else akeys m ++ [k] := by
  induction m with
  | nil => simp [aset, akeys]
  | cons kv rest ih =>
    obtain ⟨k0, w0⟩ := kv
    by_cases h0 : k0 = k
    · subst h0
      simp [aset, akeys]
    · have h0' : ¬ k = k0 := fun hh => h0 hh.symm
      simp only [aset, if_neg h0, akeys, List.map_cons] at *
      by_cases hmem : k ∈ akeys rest
      · simp only [akeys] at hmem
        simp [ih, hmem, h0']
      · simp only [akeys] at hmem
        simp [ih, hmem, h0']

theorem akeys_aset_nodup {α : Type} (m : AList α) (k : String) (v : α)
    (h : (akeys m).Nodup) : (akeys (aset m k v)).Nodup := by
  rw [akeys_aset]
  by_cases hmem : k ∈ akeys m
  · simp [hmem, h]
  · simp only [hmem, if_neg]
    simp [List.nodup_append, h, hmem]

/-! ## Lemmas: folded insertion (`asetAll`) -/

theorem alookup_append {α : Type} (l1 l2 : AList α) (k : String) :
    alookup (l1 ++ l2) k =
      match alookup l1 k with
      | some v => some v
      | none => alookup l2 k := by
  induction l1 with
  | nil => simp [alookup]
  | cons kv rest ih =>
    obtain ⟨k0, v0⟩ := kv
    by_cases h0 : k0 = k
    · simp [alookup, h0]
    · simp only [List.cons_append, alookup, if_neg h0]
      exact ih

theorem alookup_asetAll {α : Type} (l acc : AList α) (k : String) :
    alookup (asetAll acc l) k =
      match alookup l.reverse k with
      | some v => some v
      | none => alookup acc k := by
  induction l generalizing acc with
  | nil => simp [asetAll, alookup]
  | cons kv rest ih =>
    obtain ⟨k0, v0⟩ := kv
    show alookup (asetAll (aset acc k0 v0) rest) k = _
    rw [ih (aset acc k0 v0), List.reverse_cons, alookup_append]
    by_cases hrest : alookup rest.reverse k = none
    · simp only [hrest]
      by_cases h0 : k0 = k
      · subst h0
        simp [alookup, alookup_aset_self]
      · have h0' : k ≠ k0 := fun hh => h0 hh.symm
        simp [alookup, h0, alookup_aset_other _ _ _ _ h0']
    · obtain ⟨v, hv⟩ := Option.ne_none_iff_exists'.mp hrest
      simp [hv]

/-! ## Lemmas: function attachment -/

/-- All bindings contributed by a factory list, in registration order. -/
def flattenFactories (fs : List (Option Factory)) : FuncMap :=
  fs.foldl (fun acc of => acc ++ of.getD []) []

theorem flattenFactories_from (fs : List (Option Factory)) (init : FuncMap) :
    fs.foldl (fun acc of => acc ++ of.getD []) init = init ++ flattenFactories fs := by
  induction fs generalizing init with
  | nil => simp [flattenFactories]
  | cons of rest ih =>
    show rest.foldl _ (init ++ of.getD []) = _
    rw [ih (init ++ of.getD [])]
    have h2 : flattenFactories (of :: rest) = of.getD [] ++ flattenFactories rest := by
      show rest.foldl _ ([] ++ of.getD []) = _
      rw [ih ([] ++ of.getD [])]
      simp
    rw [h2, List.append_assoc]

theorem flattenFactories_cons (of : Option Factory) (rest : List (Option Factory)) :
    flattenFactories (of :: rest) = of.getD [] ++ flattenFactories rest := by
  show rest.foldl _ ([] ++ of.getD []) = _
  rw [flattenFactories_from]
  simp

theorem asetAll_append {α : Type} (a : AList α) (l1 l2 : AList α) :
    asetAll a (l1 ++ l2) = asetAll (asetAll a l1) l2 := by
  simp [asetAll, List.foldl_append]

theorem attachFuncs_defs (t : Template) (fs : List (Option Factory)) :
    (attachFuncs t fs).defs = t.defs := by
  induction fs generalizing t with
  | nil => rfl
  | cons of rest ih =>
    cases of with
    | none => exact ih t
    | some m =>
      show (attachFuncs (t.addFuncs m) rest).defs = t.defs
      rw [ih (t.addFuncs m)]
      rfl

theorem attachFuncs_funcs (t : Template) (fs : List (Option Factory)) :
    (attachFuncs t fs).funcs = asetAll t.funcs (flattenFactories fs) := by
  induction fs generalizing t with
  | nil => rfl
  | cons of rest ih =>
    cases of with
    | none =>
      show (attachFuncs t rest).funcs = asetAll t.funcs (flattenFactories (none :: rest))
      rw [ih t, flattenFactories_cons]
      simp
    | some m =>
      show (attachFuncs (t.addFuncs m) rest).funcs =
        asetAll t.funcs (flattenFactories (some m :: rest))
      rw [ih (t.addFuncs m), flattenFactories_cons, asetAll_append]
      rfl

/-- Attaching the same factories again changes no function lookup: the
key fact behind repeated renders being byte-identical. -/
theorem alookup_attach_attach (t : Template) (fs : List (Option Factory)) (f : String) :
    alookup (attachFuncs (attachFuncs t fs) fs).funcs f =
      alookup (attachFuncs t fs).funcs f := by
  rw [attachFuncs_funcs (attachFuncs t fs) fs, attachFuncs_funcs t fs]
  simp only [alookup_asetAll]
  cases alookup (flattenFactories fs).reverse f <;> simp

/-! ## Lemmas: execution respects lookup-equal templates -/

theorem execBody_congr (t t' : Template) (hdefs : t.defs = t'.defs)
    (hfuncs : ∀ f, alookup t.funcs f = alookup t'.funcs f) :
    ∀ fuel b, execBody t fuel b = execBody t' fuel b := by
  intro fuel
  induction fuel with
  | zero =>
    intro b
    cases b <;> simp [execBody]
  | succ n ih =>
    intro b
    cases b with
    | nil => simp [execBody]
    | cons node rest =>
      have hnode : execNode t (execBody t n) node = execNode t' (execBody t' n) node := by
        cases node with
        | text s => rfl
        | execT nm =>
          simp only [execNode]
          rw [hdefs]
          cases alookup t'.defs nm <;> simp [ih]
        | callF f =>
          simp only [execNode]
          rw [hfuncs f]
      simp only [execBody, hnode, ih rest]

theorem executeTemplate_congr (t t' : Template) (hdefs : t.defs = t'.defs)
    (hfuncs : ∀ f, alookup t.funcs f = alookup t'.funcs f) (nm : String) :
    t.executeTemplate nm = t'.executeTemplate nm := by
  unfold Template.executeTemplate
  rw [hdefs]
  cases alookup t'.defs nm with
  | none => rfl
  | some b => exact execBody_congr t t' hdefs hfuncs execFuel b

/-! ## Lemmas: the two-level cache -/

theorem alookup_set2_self (t : Tpls) (L n : String) (tpl : Template) :
    alookup (set2 t L n tpl) L = some (aset ((alookup t L).getD []) n tpl) := by
  unfold set2
  cases h : alookup t L with
  | some m => simp [alookup_aset_self]
  | none => simp [alookup_aset_self, aset]

theorem alookup_set2_other (t : Tpls) (L L' n : String) (tpl : Template)
    (h : L' ≠ L) : alookup (set2 t L n tpl) L' = alookup t L' := by
  unfold set2
  cases alookup t L <;> simp [alookup_aset_other _ _ _ _ h]

theorem alookup2_set2_self (t : Tpls) (L n : String) (tpl : Template) :
    alookup2 (set2 t L n tpl) L n = some tpl := by
  unfold alookup2
  rw [alookup_set2_self]
  simp [alookup_aset_self]

theorem alookup2_set2_other_name (t : Tpls) (L n A : String) (tpl : Template)
    (h : A ≠ n) : alookup2 (set2 t L n tpl) L A = alookup2 t L A := by
  unfold alookup2
  rw [alookup_set2_self]
  have h' : ¬ n = A := fun hh => h hh.symm
  cases hL : alookup t L with
  | none => simp [alookup_aset_other _ _ _ _ h, alookup, h']
  | some m => simp [alookup_aset_other _ _ _ _ h]

theorem alookup2_set2_other_layout (t : Tpls) (L L' n A : String) (tpl : Template)
    (h : L' ≠ L) : alookup2 (set2 t L n tpl) L' A = alookup2 t L' A := by
  unfold alookup2
  rw [alookup_set2_other t L L' n tpl h]

/-- Updating an existing cache entry in place changes neither the layout
list nor the first layout's content list, hence not `DefinedTemplates`. -/
theorem definedTemplates_set2 (t : Tpls) (L n : String) (tpl w : Template)
    (h : alookup2 t L n = some w) :
    definedTemplates (set2 t L n tpl) = definedTemplates t := by
  unfold alookup2 at h
  cases hL : alookup t L with
  | none =>
    rw [hL] at h
    exact Option.noConfusion h
  | some m =>
    rw [hL] at h
    replace h : alookup m n = some w := h
    unfold set2
    rw [hL]
    unfold definedTemplates
    have hkeys : akeys (aset t L (aset m n tpl)) = akeys t :=
      akeys_aset_of_mem t L (aset m n tpl) m hL
    rw [hkeys]
    cases t with
    | nil => simp [alookup] at hL
    | cons hd rest =>
      obtain ⟨L0, m0⟩ := hd
      by_cases h0 : L0 = L
      · subst h0
        have hm : m0 = m := by simpa [alookup] using hL
        subst hm
        simp [aset, akeys_aset_of_mem m0 n tpl w h]
      · simp [aset, h0]

/-! ## Lemmas: branch equations of `HTML` -/

theorem htmlAfterReload_noLayout {α : Type} (r1 : Render) (isRW hasReq : Bool)
    (name : String) (data : Option (AList α)) (o : RenderOptions)
    (h : alookup r1.tpls o.layout = none) :
    Render.htmlAfterReload r1 isRW hasReq name data o =
      { events := textErrorEvents isRW (noLayoutMsg r1.tpls name) 500,
        logs := [], panicMsg := none, st := { r1 with locked := r1.reload } } := by
  cases hrel : r1.reload <;>
    simp [Render.htmlAfterReload, hrel, h]

theorem htmlAfterReload_noTemplate {α : Type} (r1 : Render) (isRW hasReq : Bool)
    (name : String) (data : Option (AList α)) (o : RenderOptions) (m : AList Template)
    (hL : alookup r1.tpls o.layout = some m) (hn : alookup m name = none) :
    Render.htmlAfterReload r1 isRW hasReq name data o =
      { events := textErrorEvents isRW (noTemplateMsg r1.tpls name) 500,
        logs := [], panicMsg := none, st := { r1 with locked := false } } := by
  cases hrel : r1.reload <;>
    simp [Render.htmlAfterReload, hrel, hL, hn]

theorem htmlAfterReload_found {α : Type} (r1 : Render) (isRW hasReq : Bool)
    (name : String) (data : Option (AList α)) (o : RenderOptions)
    (m : AList Template) (tpl : Template)
    (hL : alookup r1.tpls o.layout = some m) (hn : alookup m name = some tpl) :
    Render.htmlAfterReload r1 isRW hasReq name data o =
      (let tpl2 := if isRW && hasReq then attachFuncs tpl r1.funcs else tpl
       let r4 := if isRW && hasReq then
           { r1 with locked := false, tpls := set2 r1.tpls o.layout name tpl2 }
         else { r1 with locked := false }
       match tpl2.executeTemplate (o.layout ++ ".html") with
       | .error e =>
         { events := textErrorEvents isRW e 500,
           logs := [execFailLog name o.layout e (definedTemplates r4.tpls)],
           panicMsg := none, st := r4 }
       | .ok out =>
         { events := successEvents isRW o.statusCode out,
           logs := [], panicMsg := none, st := r4 }) := by
  cases hrel : r1.reload <;>
    cases hrw : isRW <;> cases hhr : hasReq <;>
      simp [Render.htmlAfterReload, hrel, hL, hn]

theorem htmlAfterReload_exec_error {α : Type} (r1 : Render) (isRW hasReq : Bool)
    (name : String) (data : Option (AList α)) (o : RenderOptions)
    (m : AList Template) (tpl : Template) (e : String)
    (hL : alookup r1.tpls o.layout = some m) (hn : alookup m name = some tpl)
    (hexec : (if isRW && hasReq then attachFuncs tpl r1.funcs else tpl).executeTemplate
        (o.layout ++ ".html") = .error e) :
    Render.htmlAfterReload r1 isRW hasReq name data o =
      { events := textErrorEvents isRW e 500,
        logs := [execFailLog name o.layout e (definedTemplates
          (if isRW && hasReq then set2 r1.tpls o.layout name
              (if isRW && hasReq then attachFuncs tpl r1.funcs else tpl) else r1.tpls))],
        panicMsg := none,
        st := if isRW && hasReq then
            { r1 with
                locked := false,
                tpls := set2 r1.tpls o.layout name
                  (if isRW && hasReq then attachFuncs tpl r1.funcs else tpl) }
          else { r1 with locked := false } } := by
  rw [htmlAfterReload_found r1 isRW hasReq name data o m tpl hL hn]
  simp only [hexec]
  cases hATT : (isRW && hasReq) <;> simp [hATT]

theorem htmlAfterReload_exec_ok {α : Type} (r1 : Render) (isRW hasReq : Bool)
    (name : String) (data : Option (AList α)) (o : RenderOptions)
    (m : AList Template) (tpl : Template) (out : String)
    (hL : alookup r1.tpls o.layout = some m) (hn : alookup m name = some tpl)
    (hexec : (if isRW && hasReq then attachFuncs tpl r1.funcs else tpl).executeTemplate
        (o.layout ++ ".html") = .ok out) :
    Render.htmlAfterReload r1 isRW hasReq name data o =
      { events := successEvents isRW o.statusCode out,
        logs := [],
        panicMsg := none,
        st := if isRW && hasReq then
            { r1 with
                locked := false,
                tpls := set2 r1.tpls o.layout name
                  (if isRW && hasReq then attachFuncs tpl r1.funcs else tpl) }
          else { r1 with locked := false } } := by
  rw [htmlAfterReload_found r1 isRW hasReq name data o m tpl hL hn]
  simp only [hexec]

theorem html_static {α : Type} (r : Render) (fs : FS) (isRW hasReq : Bool)
    (name : String) (data : Option (AList α)) (opts : List RenderOptions)
    (h : r.reload = false) :
    r.html fs isRW hasReq name data opts =
      Render.htmlAfterReload r isRW hasReq name data
        ((opts.foldl (fun _ x => x) ⟨0, ""⟩).setDefaults) := by
  have hif : (if r.reload = true then parseTemplates r.funcs r.tpls fs else POut.ok r.tpls)
      = POut.ok r.tpls := by
    rw [h]
    rfl
  unfold Render.html
  rw [hif]

theorem html_reload_err {α : Type} (r : Render) (fs : FS) (isRW hasReq : Bool)
    (name : String) (data : Option (AList α)) (opts : List RenderOptions)
    (msg : String) (t : Tpls) (h : r.reload = true)
    (hp : parseTemplates r.funcs r.tpls fs = .err msg t) :
    r.html fs isRW hasReq name data opts =
      Render.htmlAfterReload { r with tpls := t } isRW hasReq name data
        ((opts.foldl (fun _ x => x) ⟨0, ""⟩).setDefaults) := by
  simp [Render.html, h, hp]

theorem html_reload {α : Type} (r : Render) (fs : FS) (isRW hasReq : Bool)
    (name : String) (data : Option (AList α)) (opts : List RenderOptions)
    (t : Tpls) (h : r.reload = true)
    (hp : parseTemplates r.funcs r.tpls fs = .ok t) :
    r.html fs isRW hasReq name data opts =
      Render.htmlAfterReload { r with tpls := t } isRW hasReq name data
        ((opts.foldl (fun _ x => x) ⟨0, ""⟩).setDefaults) := by
  simp [Render.html, h, hp]

/-! ## Lemmas: the content walk -/

theorem alookup_setAll (lm : AList Template) (hnd : (akeys lm).Nodup)
    (t : Tpls) (n : String) (ds : Defs) (L : String) :
    alookup (setAll lm t n ds) L =
      match alookup lm L with
      | some ltpl => some (aset ((alookup t L).getD []) n (ltpl.clone.parseDefs ds))
      | none => alookup t L := by
  induction lm generalizing t with
  | nil => simp [setAll, alookup]
  | cons kv rest ih =>
    obtain ⟨L0, ltpl0⟩ := kv
    have hnd' : (akeys rest).Nodup := by
      simp only [akeys, List.map_cons, List.nodup_cons] at hnd
      exact hnd.2
    show alookup (setAll rest (set2 t L0 n (ltpl0.clone.parseDefs ds)) n ds) L = _
    rw [ih hnd' (set2 t L0 n (ltpl0.clone.parseDefs ds))]
    by_cases h0 : L0 = L
    · subst h0
      have hrest : alookup rest L0 = none := by
        rw [alookup_eq_none_iff]
        simp only [akeys, List.map_cons, List.nodup_cons] at hnd
        exact hnd.1
      rw [hrest]
      simp [alookup, alookup_set2_self]
    · have h0' : L ≠ L0 := fun hh => h0 hh.symm
      cases hr : alookup rest L with
      | none =>
        simp [alookup, h0, hr, alookup_set2_other t L0 L n _ h0']
      | some ltpl =>
        simp [alookup, h0, hr, alookup_set2_other t L0 L n _ h0']

theorem alookup2_setAll_self (lm : AList Template) (hnd : (akeys lm).Nodup)
    (t : Tpls) (n : String) (ds : Defs) (L : String) (ltpl : Template)
    (hL : alookup lm L = some ltpl) :
    alookup2 (setAll lm t n ds) L n = some (ltpl.clone.parseDefs ds) := by
  unfold alookup2
  rw [alookup_setAll lm hnd t n ds L, hL]
  simp [alookup_aset_self]

theorem alookup2_setAll_other_name (lm : AList Template) (hnd : (akeys lm).Nodup)
    (t : Tpls) (n : String) (ds : Defs) (L A : String) (hA : A ≠ n) :
    alookup2 (setAll lm t n ds) L A = alookup2 t L A := by
  unfold alookup2
  rw [alookup_setAll lm hnd t n ds L]
  cases hL : alookup lm L with
  | none => rfl
  | some ltpl =>
    have hA' : ¬ n = A := fun hh => hA hh.symm
    cases ht : alookup t L with
    | none => simp [alookup_aset_other _ _ _ _ hA, alookup, ht, hA']
    | some m => simp [alookup_aset_other _ _ _ _ hA, ht, hA']

theorem contentFold_lookup (lm : AList Template) (hnd : (akeys lm).Nodup)
    (L : String) (ltpl : Template) (hL : alookup lm L = some ltpl) (A : String) :
    ∀ (files : List (String × FileContent)) (t tf : Tpls),
      contentFold lm t files = .ok tf →
      alookup2 tf L A =
        match lastContentDefs files A with
        | some ds => some (ltpl.clone.parseDefs ds)
        | none => alookup2 t L A := by
  intro files
  induction files with
  | nil =>
    intro t tf h
    replace h : POut.ok t = POut.ok tf := h
    cases h
    simp [lastContentDefs]
  | cons pc rest ih =>
    intro t tf h
    obtain ⟨p, c⟩ := pc
    have hlast : lastContentDefs ((p, c) :: rest) A =
        (lastContentDefs rest A).orElse (fun _ => fileDefsFor A (p, c)) := rfl
    cases hex : extractNameFromPath "." p true with
    | error msg =>
      simp only [contentFold, hex] at h
      exact POut.noConfusion h
    | ok n =>
      simp only [contentFold, hex] at h
      have hfd : fileDefsFor A (p, c) =
          (if sStartsWith n "layouts" then none
           else if n = A then
             (match c with | .ok ds => some ds | .parseError _ => none)
           else none) := by
        simp [fileDefsFor, hex]
      by_cases hlay : sStartsWith n "layouts" = true
      · rw [if_pos hlay] at h
        rw [hlast, hfd, if_pos hlay]
        rw [ih t tf h]
        cases lastContentDefs rest A <;> simp
      · rw [if_neg hlay] at h
        rw [hlast, hfd, if_neg hlay]
        cases c with
        | parseError msg => exact POut.noConfusion h
        | ok ds =>
          rw [ih (setAll lm t n ds) tf h]
          cases hlr : lastContentDefs rest A with
          | some ds' => simp
          | none =>
            by_cases hnA : n = A
            · subst hnA
              simp [alookup2_setAll_self lm hnd t n ds L ltpl hL]
            · have hnA' : A ≠ n := fun hh => hnA hh.symm
              simp [alookup2_setAll_other_name lm hnd t n ds L A hnA', hnA]

theorem contentFold_not_panicked (lm : AList Template) :
    ∀ (files : List (String × FileContent)),
      (∀ pc ∈ files, extOk "." pc.1 true = true) →
      ∀ (t : Tpls) (msg : String), contentFold lm t files ≠ .panicked msg := by
  intro files
  induction files with
  | nil =>
    intro _ t msg h
    exact POut.noConfusion h
  | cons pc rest ih =>
    intro hfiles t msg h
    obtain ⟨p, c⟩ := pc
    have hp := hfiles (p, c) (by simp)
    unfold extOk at hp
    cases hex : extractNameFromPath "." p true with
    | error m2 =>
      rw [hex] at hp
      exact Bool.noConfusion hp
    | ok n =>
      simp only [contentFold, hex] at h
      have hrest : ∀ pc ∈ rest, extOk "." pc.1 true = true := by
        intro x hx
        exact hfiles x (by simp [hx])
      by_cases hlay : sStartsWith n "layouts" = true
      · rw [if_pos hlay] at h
        exact ih hrest t msg h
      · rw [if_neg hlay] at h
        cases c with
        | parseError m2 => exact POut.noConfusion h
        | ok ds => exact ih hrest (setAll lm t n ds) msg h

/-! ## Lemmas: the layout walk -/

theorem layoutFold_not_panicked (fs : FS) :
    ∀ (files : List (String × FileContent)),
      (∀ pc ∈ files, extOk "layouts" pc.1 false = true) →
      ∀ (b : Template) (lm : AList Template) (msg : String),
        layoutFold fs b lm files ≠ .panicked msg := by
  intro files
  induction files with
  | nil =>
    intro _ b lm msg h
    exact LOut.noConfusion h
  | cons pc rest ih =>
    intro hfiles b lm msg h
    obtain ⟨p, c⟩ := pc
    have hp := hfiles (p, c) (by simp)
    unfold extOk at hp
    cases hex : extractNameFromPath "layouts" p false with
    | error m2 =>
      rw [hex] at hp
      exact Bool.noConfusion hp
    | ok layoutName =>
      simp only [layoutFold, hex] at h
      have hrest : ∀ pc ∈ rest, extOk "layouts" pc.1 false = true := by
        intro x hx
        exact hfiles x (by simp [hx])
      cases hread : fs.read ("layouts/" ++ layoutName ++ ".html") with
      | none =>
        rw [hread] at h
        exact LOut.noConfusion h
      | some fc =>
        rw [hread] at h
        cases fc with
        | parseError m2 => exact LOut.noConfusion h
        | ok ds => exact ih hrest _ _ msg h

theorem layoutFold_nodup (fs : FS) :
    ∀ (files : List (String × FileContent)) (b : Template)
      (lm0 lm : AList Template),
      layoutFold fs b lm0 files = .ok lm →
      (akeys lm0).Nodup → (akeys lm).Nodup := by
  intro files
  induction files with
  | nil =>
    intro b lm0 lm h hnd
    replace h : LOut.ok lm0 = LOut.ok lm := h
    cases h
    exact hnd
  | cons pc rest ih =>
    intro b lm0 lm h hnd
    obtain ⟨p, c⟩ := pc
    cases hex : extractNameFromPath "layouts" p false with
    | error msg =>
      simp only [layoutFold, hex] at h
      exact LOut.noConfusion h
    | ok layoutName =>
      simp only [layoutFold, hex] at h
      cases hread : fs.read ("layouts/" ++ layoutName ++ ".html") with
      | none =>
        rw [hread] at h
        exact LOut.noConfusion h
      | some fc =>
        rw [hread] at h
        cases fc with
        | parseError m2 => exact LOut.noConfusion h
        | ok ds =>
          exact ih _ _ lm h (akeys_aset_nodup lm0 layoutName _ hnd)

/-! ## Lemmas: `parseTemplates` -/

theorem parseTemplates_not_panicked (funcs : List (Option Factory)) (tpls : Tpls)
    (fs : FS) (h : fs.noPanicFiles = true) (msg : String) :
    parseTemplates funcs tpls fs ≠ .panicked msg := by
  intro hp
  unfold parseTemplates at hp
  have hall := (List.all_eq_true).mp h
  cases hl : layoutFold fs (baseTemplate funcs) []
      (fs.files.filter (fun pc => sStartsWith pc.1 "layouts/")) with
  | err m2 =>
    rw [hl] at hp
    exact POut.noConfusion hp
  | panicked m2 =>
    refine layoutFold_not_panicked fs _ ?_ (baseTemplate funcs) [] m2 hl
    intro pc hpc
    have hmem := List.mem_filter.mp hpc
    have := hall pc hmem.1
    simp only [Bool.and_eq_true] at this
    rcases this with ⟨_, h2⟩
    rw [hmem.2] at h2
    simpa using h2
  | ok lm =>
    rw [hl] at hp
    refine contentFold_not_panicked lm fs.files ?_ tpls msg hp
    intro pc hpc
    have := hall pc hpc
    simp only [Bool.and_eq_true] at this
    exact this.1

/-! ## Lemmas: substring containment -/

theorem strContains_mid (s1 nm s2 : String) : strContainsB (s1 ++ nm ++ s2) nm := by
  unfold strContainsB
  simp only [String.data_append]
  exact List.infix_append s1.data nm.data s2.data

theorem strContains_suffix (a b : String) : strContainsB (a ++ b) b := by
  unfold strContainsB
  simp only [String.data_append]
  exact (List.suffix_append a.data b.data).isInfix

theorem strContains_extend (a b nd : String) (h : strContainsB a nd) :
    strContainsB (a ++ b) nd := by
  unfold strContainsB at *
  simp only [String.data_append]
  exact h.trans (List.infix_append [] a.data b.data)

theorem strContains_extendL (a b nd : String) (h : strContainsB b nd) :
    strContainsB (a ++ b) nd := by
  unfold strContainsB at *
  simp only [String.data_append]
  exact h.trans ((List.suffix_append a.data b.data).isInfix)

/-! ## Lemmas: value merging -/

theorem alookup_mergeFold {α : Type} (vs d : AList α) (k : String) :
    alookup (vs.foldl
        (fun acc kv => if (alookup acc kv.1).isSome then acc else aset acc kv.1 kv.2) d) k =
      match alookup d k with
      | some v => some v
      | none => alookup vs k := by
  induction vs generalizing d with
  | nil =>
    cases hd : alookup d k <;> simp [alookup, hd]
  | cons kv rest ih =>
    obtain ⟨k0, v0⟩ := kv
    show alookup (rest.foldl _ (if (alookup d k0).isSome then d else aset d k0 v0)) k = _
    rw [ih (if (alookup d k0).isSome then d else aset d k0 v0)]
    by_cases h0 : (alookup d k0).isSome
    · rw [if_pos h0]
      cases hd : alookup d k with
      | some w => simp
      | none =>
        have hk : ¬ k0 = k := by
          intro hh
          rw [hh] at h0
          rw [hd] at h0
          exact Bool.noConfusion h0
        simp [alookup, hk]
    · rw [if_neg h0]
      by_cases hk : k0 = k
      · subst hk
        have hd : alookup d k0 = none := by
          cases hdd : alookup d k0 with
          | none => rfl
          | some w => rw [hdd] at h0; exact absurd rfl h0
        rw [alookup_aset_self, hd]
        simp [alookup]
      · rw [alookup_aset_other d k0 k v0 (fun hh => hk hh.symm)]
        cases hd : alookup d k with
        | some w => simp
        | none => simp [alookup, hk]

/-! ## Lemmas: replacing one content file's text -/

theorem isPrefixOf_append_self (l m : List Char) : l.isPrefixOf (l ++ m) = true := by
  induction l with
  | nil => simp [List.isPrefixOf]
  | cons c rest ih => simp [List.isPrefixOf, ih]

theorem sStartsWith_append (a b : String) : sStartsWith (a ++ b) a = true := by
  unfold sStartsWith
  rw [String.data_append]
  exact isPrefixOf_append_self a.data b.data

theorem read_withFile_ne (fs : FS) (pB : String) (cB' : FileContent) (q : String)
    (h : q ≠ pB) : (fs.withFile pB cB').read q = fs.read q := by
  unfold FS.read FS.withFile
  induction fs.files with
  | nil => rfl
  | cons pc rest ih =>
    obtain ⟨p, c⟩ := pc
    simp only [List.map_cons]
    by_cases hp : p = pB
    · subst hp
      have hq : ¬ p = q := fun hh => h hh.symm
      show alookup ((if p = p then (p, cB') else (p, c)) :: _) q = _
      rw [if_pos rfl]
      show (if p = q then some cB' else alookup (rest.map _) q)
        = (if p = q then some c else alookup rest q)
      rw [if_neg hq, if_neg hq]
      exact ih
    · show alookup ((if p = pB then (p, cB') else (p, c)) :: _) q = _
      rw [if_neg hp]
      show (if p = q then some c else alookup (rest.map _) q)
        = (if p = q then some c else alookup rest q)
      by_cases hq : p = q
      · rw [if_pos hq, if_pos hq]
      · rw [if_neg hq, if_neg hq]
        exact ih

theorem filter_withFile_layouts (fs : FS) (pB : String) (cB' : FileContent)
    (h : sStartsWith pB "layouts/" = false) :
    (fs.withFile pB cB').files.filter (fun pc => sStartsWith pc.1 "layouts/")
      = fs.files.filter (fun pc => sStartsWith pc.1 "layouts/") := by
  show (fs.files.map _).filter _ = _
  induction fs.files with
  | nil => rfl
  | cons pc rest ih =>
    obtain ⟨p, c⟩ := pc
    by_cases hp : p = pB
    · subst hp
      simp [List.filter_cons, h, ih]
    · simp [List.filter_cons, hp, ih]

theorem layoutFold_withFile (fs : FS) (pB : String) (cB' : FileContent)
    (hnl : sStartsWith pB "layouts/" = false) :
    ∀ (files : List (String × FileContent)) (b : Template) (lm : AList Template),
      layoutFold (fs.withFile pB cB') b lm files = layoutFold fs b lm files := by
  intro files
  induction files with
  | nil => intro b lm; rfl
  | cons pc rest ih =>
    intro b lm
    obtain ⟨p, c⟩ := pc
    cases hex : extractNameFromPath "layouts" p false with
    | error msg => simp only [layoutFold, hex]
    | ok layoutName =>
      have hne : ("layouts/" ++ layoutName ++ ".html") ≠ pB := by
        intro hh
        have := sStartsWith_append "layouts/" (layoutName ++ ".html")
        rw [← String.append_assoc] at this
        rw [hh] at this
        rw [hnl] at this
        exact Bool.noConfusion this
      simp only [layoutFold, hex, read_withFile_ne fs pB cB' _ hne]
      cases fs.read ("layouts/" ++ layoutName ++ ".html") with
      | none => rfl
      | some fc =>
        cases fc with
        | parseError msg => rfl
        | ok ds => exact ih _ _

theorem lastContentDefs_withFile (fs : FS) (pB : String) (cB' : FileContent)
    (Bn A : String)
    (hch : extractNameFromPath "." pB true = .ok Bn) (hne : Bn ≠ A) :
    lastContentDefs (fs.withFile pB cB').files A = lastContentDefs fs.files A := by
  show lastContentDefs (fs.files.map _) A = _
  induction fs.files with
  | nil => rfl
  | cons pc rest ih =>
    obtain ⟨p, c⟩ := pc
    have hstep : ∀ (l1 l2 : List (String × FileContent)) (x y : String × FileContent),
        lastContentDefs l1 A = lastContentDefs l2 A → fileDefsFor A x = fileDefsFor A y →
        lastContentDefs (x :: l1) A = lastContentDefs (y :: l2) A := by
      intro l1 l2 x y h1 h2
      show (lastContentDefs l1 A).orElse _ = (lastContentDefs l2 A).orElse _
      rw [h1, h2]
    simp only [List.map_cons]
    by_cases hp : p = pB
    · refine hstep _ _ _ _ ih ?_
      rw [if_pos hp]
      subst hp
      unfold fileDefsFor
      rw [hch]
      by_cases hlay : sStartsWith Bn "layouts" = true
      · simp [hlay]
      · have hBA : ¬ Bn = A := hne
        simp [hlay, hBA]
    · refine hstep _ _ _ _ ih ?_
      rw [if_neg hp]

/-! ## Lemmas: re-rendering in static mode is byte-identical -/

theorem htmlAfterReload_st_fields {α : Type} (r1 : Render) (isRW hasReq : Bool)
    (name : String) (data : Option (AList α)) (o : RenderOptions) :
    ((Render.htmlAfterReload r1 isRW hasReq name data o).st.reload = r1.reload)
    ∧ ((Render.htmlAfterReload r1 isRW hasReq name data o).st.funcs = r1.funcs) := by
  cases hL : alookup r1.tpls o.layout with
  | none =>
    rw [htmlAfterReload_noLayout r1 isRW hasReq name data o hL]
    exact ⟨rfl, rfl⟩
  | some m =>
    cases hn : alookup m name with
    | none =>
      rw [htmlAfterReload_noTemplate r1 isRW hasReq name data o m hL hn]
      exact ⟨rfl, rfl⟩
    | some tpl =>
      rw [htmlAfterReload_found r1 isRW hasReq name data o m tpl hL hn]
      cases hexec : ((if isRW && hasReq then attachFuncs tpl r1.funcs else tpl).executeTemplate
          (o.layout ++ ".html")) <;>
        simp only [hexec] <;>
          cases hATT : (isRW && hasReq) <;> simp [hATT]

theorem htmlAfterReload_st_noLayout {α : Type} (r1 : Render) (isRW hasReq : Bool)
    (name : String) (data : Option (AList α)) (o : RenderOptions)
    (h : alookup r1.tpls o.layout = none) :
    (Render.htmlAfterReload r1 isRW hasReq name data o).st = { r1 with locked := r1.reload } := by
  rw [htmlAfterReload_noLayout r1 isRW hasReq name data o h]

theorem htmlAfterReload_st_noTemplate {α : Type} (r1 : Render) (isRW hasReq : Bool)
    (name : String) (data : Option (AList α)) (o : RenderOptions) (m : AList Template)
    (hL : alookup r1.tpls o.layout = some m) (hn : alookup m name = none) :
    (Render.htmlAfterReload r1 isRW hasReq name data o).st = { r1 with locked := false } := by
  rw [htmlAfterReload_noTemplate r1 isRW hasReq name data o m hL hn]

theorem htmlAfterReload_st_found {α : Type} (r1 : Render) (isRW hasReq : Bool)
    (name : String) (data : Option (AList α)) (o : RenderOptions)
    (m : AList Template) (tpl : Template)
    (hL : alookup r1.tpls o.layout = some m) (hn : alookup m name = some tpl) :
    (Render.htmlAfterReload r1 isRW hasReq name data o).st =
      if isRW && hasReq then
        { r1 with
            locked := false,
            tpls := set2 r1.tpls o.layout name
              (if isRW && hasReq then attachFuncs tpl r1.funcs else tpl) }
      else { r1 with locked := false } := by
  cases hexec : ((if isRW && hasReq then attachFuncs tpl r1.funcs else tpl).executeTemplate
      (o.layout ++ ".html")) with
  | error e =>
    rw [htmlAfterReload_exec_error r1 isRW hasReq name data o m tpl e hL hn hexec]
  | ok out =>
    rw [htmlAfterReload_exec_ok r1 isRW hasReq name data o m tpl out hL hn hexec]

theorem rerender_afterReload {α : Type} (r : Render) (isRW hasReq : Bool) (A B : String)
    (data : Option (AList α)) (o : RenderOptions) (hAB : A ≠ B) :
    (Render.htmlAfterReload ((Render.htmlAfterReload
        ((Render.htmlAfterReload r isRW hasReq A data o).st)
        isRW hasReq B data o).st) isRW hasReq A data o).events
      = (Render.htmlAfterReload r isRW hasReq A data o).events := by
  have hBA : B ≠ A := fun hh => hAB hh.symm
  cases hLay : alookup r.tpls o.layout with
  | none =>
    rw [htmlAfterReload_noLayout r isRW hasReq A data o hLay]
    try dsimp only
    rw [htmlAfterReload_st_noLayout { r with locked := r.reload } isRW hasReq B data o hLay]
    try dsimp only
    rw [htmlAfterReload_noLayout { r with locked := r.reload } isRW hasReq A data o hLay]
  | some m =>
    cases hA : alookup m A with
    | none =>
      rw [htmlAfterReload_noTemplate r isRW hasReq A data o m hLay hA]
      try dsimp only
      cases hB : alookup m B with
      | none =>
        rw [htmlAfterReload_st_noTemplate { r with locked := false } isRW hasReq B data o m
            hLay hB]
        try dsimp only
        rw [htmlAfterReload_noTemplate { r with locked := false } isRW hasReq A data o m
            hLay hA]
      | some tplB =>
        rw [htmlAfterReload_st_found { r with locked := false } isRW hasReq B data o m tplB
            hLay hB]
        by_cases hATT : (isRW && hasReq) = true
        case neg =>
          rw [if_neg hATT]
          try dsimp only
          rw [htmlAfterReload_noTemplate { r with locked := false } isRW hasReq A data o m
              hLay hA]
        case pos =>
          rw [if_pos hATT, if_pos hATT]
          try dsimp only
          have hLay2 : alookup (set2 r.tpls o.layout B (attachFuncs tplB r.funcs)) o.layout
              = some (aset m B (attachFuncs tplB r.funcs)) := by
            rw [alookup_set2_self, hLay]
            rfl
          have hA2 : alookup (aset m B (attachFuncs tplB r.funcs)) A = none := by
            rw [alookup_aset_other m B A _ hAB]
            exact hA
          rw [htmlAfterReload_noTemplate
              { r with
                  locked := false,
                  tpls := set2 r.tpls o.layout B (attachFuncs tplB r.funcs) }
              isRW hasReq A data o _ hLay2 hA2]
          have hDT : definedTemplates (set2 r.tpls o.layout B (attachFuncs tplB r.funcs))
              = definedTemplates r.tpls := by
            refine definedTemplates_set2 r.tpls o.layout B _ tplB ?_
            unfold alookup2
            rw [hLay]
            exact hB
          show textErrorEvents isRW (noTemplateMsg
              (set2 r.tpls o.layout B (attachFuncs tplB r.funcs)) A) 500
            = textErrorEvents isRW (noTemplateMsg r.tpls A) 500
          unfold noTemplateMsg
          rw [hDT]
    | some tplA =>
      by_cases hATT : (isRW && hasReq) = true
      case neg =>
        cases hexA : tplA.executeTemplate (o.layout ++ ".html") with
        | error e =>
          rw [htmlAfterReload_exec_error r isRW hasReq A data o m tplA e hLay hA
              (by rw [if_neg hATT]; exact hexA)]
          try dsimp only
          rw [if_neg hATT]
          try dsimp only
          cases hB : alookup m B with
          | none =>
            rw [htmlAfterReload_st_noTemplate { r with locked := false } isRW hasReq B data o m
                hLay hB]
            try dsimp only
            rw [htmlAfterReload_exec_error { r with locked := false } isRW hasReq A data o m
                tplA e hLay hA (by rw [if_neg hATT]; exact hexA)]
          | some tplB =>
            rw [htmlAfterReload_st_found { r with locked := false } isRW hasReq B data o m tplB
                hLay hB]
            rw [if_neg hATT]
            try dsimp only
            rw [htmlAfterReload_exec_error { r with locked := false } isRW hasReq A data o m
                tplA e hLay hA (by rw [if_neg hATT]; exact hexA)]
        | ok out =>
          rw [htmlAfterReload_exec_ok r isRW hasReq A data o m tplA out hLay hA
              (by rw [if_neg hATT]; exact hexA)]
          try dsimp only
          rw [if_neg hATT]
          try dsimp only
          cases hB : alookup m B with
          | none =>
            rw [htmlAfterReload_st_noTemplate { r with locked := false } isRW hasReq B data o m
                hLay hB]
            try dsimp only
            rw [htmlAfterReload_exec_ok { r with locked := false } isRW hasReq A data o m
                tplA out hLay hA (by rw [if_neg hATT]; exact hexA)]
          | some tplB =>
            rw [htmlAfterReload_st_found { r with locked := false } isRW hasReq B data o m tplB
                hLay hB]
            rw [if_neg hATT]
            try dsimp only
            rw [htmlAfterReload_exec_ok { r with locked := false } isRW hasReq A data o m
                tplA out hLay hA (by rw [if_neg hATT]; exact hexA)]
      case pos =>
        have hcong : (attachFuncs (attachFuncs tplA r.funcs) r.funcs).executeTemplate
            (o.layout ++ ".html")
            = (attachFuncs tplA r.funcs).executeTemplate (o.layout ++ ".html") :=
          executeTemplate_congr _ _ (by rw [attachFuncs_defs, attachFuncs_defs])
            (alookup_attach_attach tplA r.funcs) _
        have hLay1 : alookup (set2 r.tpls o.layout A (attachFuncs tplA r.funcs)) o.layout
            = some (aset m A (attachFuncs tplA r.funcs)) := by
          rw [alookup_set2_self, hLay]
          rfl
        cases hexA : (attachFuncs tplA r.funcs).executeTemplate (o.layout ++ ".html") with
        | error e =>
          rw [htmlAfterReload_exec_error r isRW hasReq A data o m tplA e hLay hA
              (by rw [if_pos hATT]; exact hexA)]
          try dsimp only
          rw [if_pos hATT, if_pos hATT]
          try dsimp only
          cases hB : alookup m B with
          | none =>
            have hB1 : alookup (aset m A (attachFuncs tplA r.funcs)) B = none := by
              rw [alookup_aset_other m A B _ hBA]
              exact hB
            rw [htmlAfterReload_st_noTemplate
                { r with
                    locked := false,
                    tpls := set2 r.tpls o.layout A (attachFuncs tplA r.funcs) }
                isRW hasReq B data o _ hLay1 hB1]
            try dsimp only
            rw [htmlAfterReload_exec_error
                { r with
                    locked := false,
                    tpls := set2 r.tpls o.layout A (attachFuncs tplA r.funcs) }
                isRW hasReq A data o (aset m A (attachFuncs tplA r.funcs))
                (attachFuncs tplA r.funcs) e hLay1 (alookup_aset_self m A _)
                (by rw [if_pos hATT, hcong]; exact hexA)]
          | some tplB =>
            have hB1 : alookup (aset m A (attachFuncs tplA r.funcs)) B = some tplB := by
              rw [alookup_aset_other m A B _ hBA]
              exact hB
            rw [htmlAfterReload_st_found
                { r with
                    locked := false,
                    tpls := set2 r.tpls o.layout A (attachFuncs tplA r.funcs) }
                isRW hasReq B data o _ tplB hLay1 hB1]
            rw [if_pos hATT, if_pos hATT]
            try dsimp only
            have hLay2 : alookup (set2 (set2 r.tpls o.layout A (attachFuncs tplA r.funcs))
                o.layout B (attachFuncs tplB r.funcs)) o.layout
                = some (aset (aset m A (attachFuncs tplA r.funcs)) B
                    (attachFuncs tplB r.funcs)) := by
              rw [alookup_set2_self, hLay1]
              rfl
            have hA2 : alookup (aset (aset m A (attachFuncs tplA r.funcs)) B
                (attachFuncs tplB r.funcs)) A = some (attachFuncs tplA r.funcs) := by
              rw [alookup_aset_other _ B A _ hAB]
              exact alookup_aset_self m A _
            rw [htmlAfterReload_exec_error
                { r with
                    locked := false,
                    tpls := set2 (set2 r.tpls o.layout A (attachFuncs tplA r.funcs))
                      o.layout B (attachFuncs tplB r.funcs) }
                isRW hasReq A data o _ (attachFuncs tplA r.funcs) e hLay2 hA2
                (by rw [if_pos hATT, hcong]; exact hexA)]
        | ok out =>
          rw [htmlAfterReload_exec_ok r isRW hasReq A data o m tplA out hLay hA
              (by rw [if_pos hATT]; exact hexA)]
          try dsimp only
          rw [if_pos hATT, if_pos hATT]
          try dsimp only
          cases hB : alookup m B with
          | none =>
            have hB1 : alookup (aset m A (attachFuncs tplA r.funcs)) B = none := by
              rw [alookup_aset_other m A B _ hBA]
              exact hB
            rw [htmlAfterReload_st_noTemplate
                { r with
                    locked := false,
                    tpls := set2 r.tpls o.layout A (attachFuncs tplA r.funcs) }
                isRW hasReq B data o _ hLay1 hB1]
            try dsimp only
            rw [htmlAfterReload_exec_ok
                { r with
                    locked := false,
                    tpls := set2 r.tpls o.layout A (attachFuncs tplA r.funcs) }
                isRW hasReq A data o (aset m A (attachFuncs tplA r.funcs))
                (attachFuncs tplA r.funcs) out hLay1 (alookup_aset_self m A _)
                (by rw [if_pos hATT, hcong]; exact hexA)]
          | some tplB =>
            have hB1 : alookup (aset m A (attachFuncs tplA r.funcs)) B = some tplB := by
              rw [alookup_aset_other m A B _ hBA]
              exact hB
            rw [htmlAfterReload_st_found
                { r with
                    locked := false,
                    tpls := set2 r.tpls o.layout A (attachFuncs tplA r.funcs) }
                isRW hasReq B data o _ tplB hLay1 hB1]
            rw [if_pos hATT, if_pos hATT]
            try dsimp only
            have hLay2 : alookup (set2 (set2 r.tpls o.layout A (attachFuncs tplA r.funcs))
                o.layout B (attachFuncs tplB r.funcs)) o.layout
                = some (aset (aset m A (attachFuncs tplA r.funcs)) B
                    (attachFuncs tplB r.funcs)) := by
              rw [alookup_set2_self, hLay1]
              rfl
            have hA2 : alookup (aset (aset m A (attachFuncs tplA r.funcs)) B
                (attachFuncs tplB r.funcs)) A = some (attachFuncs tplA r.funcs) := by
              rw [alookup_aset_other _ B A _ hAB]
              exact alookup_aset_self m A _
            rw [htmlAfterReload_exec_ok
                { r with
                    locked := false,
                    tpls := set2 (set2 r.tpls o.layout A (attachFuncs tplA r.funcs))
                      o.layout B (attachFuncs tplB r.funcs) }
                isRW hasReq A data o _ (attachFuncs tplA r.funcs) out hLay2 hA2
                (by rw [if_pos hATT, hcong]; exact hexA)]


theorem rerender_static {α : Type} (r : Render) (fs : FS) (isRW hasReq : Bool)
    (A B : String) (data : Option (AList α)) (opts : List RenderOptions)
    (hrel : r.reload = false) (hAB : A ≠ B) :
    (((r.html fs isRW hasReq A data opts).st.html fs isRW hasReq B data opts).st.html
        fs isRW hasReq A data opts).events
      = (r.html fs isRW hasReq A data opts).events := by
  have h1 := html_static (α := α) r fs isRW hasReq A data opts hrel
  have hst1 : (r.html fs isRW hasReq A data opts).st.reload = false := by
    rw [h1, (htmlAfterReload_st_fields r isRW hasReq A data _).1]
    exact hrel
  have h2 := html_static (α := α) ((r.html fs isRW hasReq A data opts).st) fs isRW hasReq
    B data opts hst1
  have hst2 : ((r.html fs isRW hasReq A data opts).st.html fs isRW hasReq B data opts).st.reload
      = false := by
    rw [h2, (htmlAfterReload_st_fields _ isRW hasReq B data _).1]
    exact hst1
  have h3 := html_static (α := α)
    (((r.html fs isRW hasReq A data opts).st.html fs isRW hasReq B data opts).st) fs isRW hasReq
    A data opts hst2
  rw [h3, h2, h1]
  exact rerender_afterReload r isRW hasReq A B data _ hAB

/-! ## Claim theorems -/

/-- C10: for every call to `Context.Render`, a key present in the
request-scoped value bag but absent from the handler data is passed with
the bag's value; a key present in both is passed with the handler's value
(handler data takes precedence); and when the handler data is nil exactly
the value bag is passed to the renderer. -/
theorem c10_merge_precedence {α : Type} (values data : AList α) (k : String) :
    (alookup data k = none →
      mlookup (mergeValues (some values) (some data)) k = alookup values k)
    ∧ (∀ v, alookup data k = some v →
      mlookup (mergeValues (some values) (some data)) k = some v)
    ∧ (∀ bag : Option (AList α), mergeValues bag none = bag) := by
  refine ⟨?_, ?_, ?_⟩
  · intro hd
    have h2 := alookup_mergeFold values data k
    rw [hd] at h2
    exact h2
  · intro v hd
    have h2 := alookup_mergeFold values data k
    rw [hd] at h2
    exact h2
  · intro bag
    cases bag <;> rfl

/-- Witness for C10 at a concrete input: the bag is
`u ↦ bag, w ↦ z`, the handler data `u ↦ handler`; the merged map passes
`handler` for the colliding key `u` and `z` for the bag-only key `w`, and
a nil handler map passes the bag unchanged. -/
theorem c10_merge_precedence_witness :
    mlookup (mergeValues (some [("u", "bag"), ("w", "z")]) (some [("u", "handler")])) "u"
        = some "handler"
    ∧ mlookup (mergeValues (some [("u", "bag"), ("w", "z")]) (some [("u", "handler")])) "w"
        = some "z"
    ∧ mergeValues (some [("u", "bag"), ("w", "z")]) (none : Option (AList String))
        = some [("u", "bag"), ("w", "z")] :=
  ⟨(c10_merge_precedence [("u", "bag"), ("w", "z")] [("u", "handler")] "u").2.1
      "handler" (by decide),
   (c10_merge_precedence [("u", "bag"), ("w", "z")] [("u", "handler")] "w").1 (by decide),
   (c10_merge_precedence [("u", "bag"), ("w", "z")] [("u", "handler")] "w").2.2 _⟩

/-- C9: on a successful render to a response-capable sink, `HTML` sets the
`text/html` content type, then the status code from the options, and only
then writes the buffered body — and the defaults are status 200 and layout
`"layout"`. -/
theorem c9_success_order_and_defaults {α : Type} (r : Render) (fs : FS)
    (hasReq : Bool) (name : String) (data : Option (AList α))
    (opts : List RenderOptions) (o : RenderOptions) (m : AList Template)
    (tpl : Template) (out : String)
    (hrel : r.reload = false)
    (ho : o = (opts.foldl (fun _ x => x) ⟨0, ""⟩).setDefaults)
    (hL : alookup r.tpls o.layout = some m)
    (hn : alookup m name = some tpl)
    (hexec : (if hasReq then attachFuncs tpl r.funcs else tpl).executeTemplate
        (o.layout ++ ".html") = .ok out) :
    (r.html fs true hasReq name data opts).events =
      [.setHeader "Content-Type" "text/html", .writeHeader o.statusCode, .write out]
    ∧ RenderOptions.setDefaults ⟨0, ""⟩ = ⟨200, "layout"⟩ := by
  constructor
  · rw [html_static r fs true hasReq name data opts hrel, ← ho,
        htmlAfterReload_found r true hasReq name data o m tpl hL hn]
    cases hasReq <;>
      simp_all [successEvents]
  · decide

/-- Witness for C9: a concrete renderer with the `fsBase` cache and no
options renders `index` with content type, status 200 (the default), then
the body, in that order. -/
theorem c9_success_order_and_defaults_witness :
    (rStatic.html (⟨[]⟩ : FS) true true "index" (none : Option (AList Unit)) []).events =
      [.setHeader "Content-Type" "text/html", .writeHeader 200, .write "<html><p>hi</p></html>"]
    ∧ RenderOptions.setDefaults ⟨0, ""⟩ = ⟨200, "layout"⟩ :=
  c9_success_order_and_defaults rStatic ⟨[]⟩ true "index" none [] ⟨200, "layout"⟩
    [("index", tplComposed)] tplComposed "<html><p>hi</p></html>"
    (by decide) (by decide) (by decide) (by decide) (by decide)

/-- C7: when template execution fails, `HTML` writes exactly the
plain-text 500 response whose body is the error text (no partially
rendered output reaches the writer) and logs the failure. -/
theorem c7_execution_error_discards_buffer {α : Type} (r : Render) (fs : FS)
    (isRW hasReq : Bool) (name : String) (data : Option (AList α))
    (opts : List RenderOptions) (o : RenderOptions) (m : AList Template)
    (tpl : Template) (e : String)
    (hrel : r.reload = false)
    (ho : o = (opts.foldl (fun _ x => x) ⟨0, ""⟩).setDefaults)
    (hL : alookup r.tpls o.layout = some m)
    (hn : alookup m name = some tpl)
    (hexec : (if isRW && hasReq then attachFuncs tpl r.funcs else tpl).executeTemplate
        (o.layout ++ ".html") = .error e) :
    (r.html fs isRW hasReq name data opts).events = textErrorEvents isRW e 500
    ∧ (r.html fs isRW hasReq name data opts).logs =
        [execFailLog name o.layout e
          (definedTemplates (r.html fs isRW hasReq name data opts).st.tpls)] := by
  have heq := html_static r fs isRW hasReq name data opts hrel
  rw [← ho, htmlAfterReload_found r isRW hasReq name data o m tpl hL hn] at heq
  cases isRW <;> cases hasReq <;>
    · simp only [Bool.and_self, Bool.and_true, Bool.and_false, Bool.true_and,
        Bool.false_and, if_true, if_false] at heq hexec
      rw [hexec] at heq
      rw [heq]
      exact ⟨rfl, rfl⟩

/-- Witness for C7: a template invoking an undefined associated template
fails at execution; the response is exactly the plain-text 500 carrying
the execution error, and the failure is logged. -/
theorem c7_execution_error_discards_buffer_witness :
    (rBadExec.html (⟨[]⟩ : FS) true true "boom" (none : Option (AList Unit)) []).events =
      textErrorEvents true "template: no such template \"nope\"" 500
    ∧ (rBadExec.html (⟨[]⟩ : FS) true true "boom" (none : Option (AList Unit)) []).logs =
        [execFailLog "boom" "layout" "template: no such template \"nope\""
          (definedTemplates
            (rBadExec.html (⟨[]⟩ : FS) true true "boom" (none : Option (AList Unit)) []).st.tpls)] :=
  c7_execution_error_discards_buffer rBadExec ⟨[]⟩ true true "boom" none []
    ⟨200, "layout"⟩ [("boom", tplBadExec)] tplBadExec
    "template: no such template \"nope\""
    (by decide) (by decide) (by decide) (by decide) (by decide)

/-! ### C4 support: the merge of part_006 -/

theorem mergedFold_fst (m : Factory) :
    ∀ st : FuncMap × List String,
      (m.foldl mergedStep st).1 =
        m.foldl (fun a kv => if (alookup a kv.1).isSome then a else aset a kv.1 kv.2) st.1 := by
  induction m with
  | nil => intro st; rfl
  | cons kv rest ih =>
    intro st
    show (rest.foldl mergedStep (mergedStep st kv)).1 = _
    rw [ih (mergedStep st kv)]
    unfold mergedStep
    by_cases h : (alookup st.1 kv.1).isSome
    · simp [h]
    · simp [h]

theorem mergedFold_warn_len (m : Factory) :
    ∀ st : FuncMap × List String,
      st.2.length ≤ (m.foldl mergedStep st).2.length := by
  induction m with
  | nil => intro st; exact Nat.le_refl _
  | cons kv rest ih =>
    intro st
    show st.2.length ≤ (rest.foldl mergedStep (mergedStep st kv)).2.length
    refine Nat.le_trans ?_ (ih (mergedStep st kv))
    unfold mergedStep
    by_cases h : (alookup st.1 kv.1).isSome
    · simp [h]
    · simp [h]

theorem mergedFold_warn_hit (m : Factory) (f : String) :
    f ∈ akeys m →
    ∀ st : FuncMap × List String, (alookup st.1 f).isSome = true →
      st.2.length + 1 ≤ (m.foldl mergedStep st).2.length := by
  induction m with
  | nil => intro hf; simp [akeys] at hf
  | cons kv rest ih =>
    intro hf st hsome
    obtain ⟨k0, v0⟩ := kv
    show st.2.length + 1 ≤ (rest.foldl mergedStep (mergedStep st (k0, v0))).2.length
    by_cases h0 : k0 = f
    · subst h0
      have hstep : mergedStep st (k0, v0) = (st.1, st.2 ++
          ["[warning] seatbelt/render.HTML: func " ++ k0 ++ " overrides existing func"]) := by
        unfold mergedStep
        rw [if_pos hsome]
      rw [hstep]
      have := mergedFold_warn_len rest (st.1, st.2 ++
          ["[warning] seatbelt/render.HTML: func " ++ k0 ++ " overrides existing func"])
      simpa using this
    · have hf' : f ∈ akeys rest := by
        simp only [akeys, List.map_cons, List.mem_cons] at hf
        rcases hf with hf | hf
        · exact absurd hf.symm h0
        · exact hf
      have hsome' : (alookup (mergedStep st (k0, v0)).1 f).isSome = true := by
        unfold mergedStep
        by_cases h : (alookup st.1 k0).isSome = true
        · simpa [h] using hsome
        · rw [if_neg h]
          show (alookup (aset st.1 k0 v0) f).isSome = true
          rw [alookup_aset_other st.1 k0 f v0 (fun hh => h0 hh.symm)]
          exact hsome
      have hlen : st.2.length ≤ (mergedStep st (k0, v0)).2.length := by
        unfold mergedStep
        by_cases h : (alookup st.1 k0).isSome
        · simp [h]
        · simp [h]
      have := ih hf' (mergedStep st (k0, v0)) hsome'
      omega

theorem mem_akeys_of_alookup {α : Type} (m : AList α) (k : String) (v : α)
    (h : alookup m k = some v) : k ∈ akeys m := by
  by_contra hc
  rw [← alookup_eq_none_iff] at hc
  rw [h] at hc
  exact Option.noConfusion hc

/-- C4 counterexample: with two factories both declaring `f` (first
returning `ONE`, second `TWO`), the current renderer invokes the *second*
factory's implementation at render time — the body is `TWO`, not `ONE` —
and emits no warning (the log is empty). -/
theorem c4_last_factory_wins_counterexample :
    (rTwoFactories.html (⟨[]⟩ : FS) true true "index" (none : Option (AList Unit)) []).events
      = successEvents true 200 "TWO"
    ∧ (rTwoFactories.html (⟨[]⟩ : FS) true true "index" (none : Option (AList Unit)) []).logs
      = [] := by
  set_option maxRecDepth 100000 in
  exact ⟨by decide, by decide⟩

/-- C4 amended: in the current renderer (render.go), when two factories
both declare `f`, the *last*-registered factory's implementation is the
one resolved at render time — for every prior state of the template's
function map, so repeated renders resolve identically — and no duplicate
warning exists on that path; in the earlier iteration (part_006) the
*first* factory's implementation wins and a warning is printed. -/
theorem c4_function_shadowing_amended (t : Template) (m1 m2 : Factory)
    (f : String) (v1 v2 : FuncImpl)
    (h1 : alookup m1 f = some v1) (h2 : alookup m2.reverse f = some v2) :
    alookup (attachFuncs t [some m1, some m2]).funcs f = some v2
    ∧ alookup (mergedFuncMap [some m1, some m2]).1 f = some v1
    ∧ (mergedFuncMap [some m1, some m2]).2 ≠ [] := by
  have hflat : flattenFactories [some m1, some m2] = m1 ++ (m2 ++ []) := by
    rw [flattenFactories_cons, flattenFactories_cons]
    rfl
  have e0 : mergedFuncMap [some m1, some m2]
      = m2.foldl mergedStep (m1.foldl mergedStep (([], []) : FuncMap × List String)) := rfl
  have hsome : (alookup (m1.foldl mergedStep (([], []) : FuncMap × List String)).1 f).isSome
      = true := by
    rw [mergedFold_fst m1 (([], []) : FuncMap × List String)]
    show (alookup (m1.foldl _ []) f).isSome = true
    rw [alookup_mergeFold]
    simp [alookup, h1]
  refine ⟨?_, ?_, ?_⟩
  · rw [attachFuncs_funcs, hflat, alookup_asetAll]
    have hrev : (m1 ++ (m2 ++ [])).reverse = m2.reverse ++ m1.reverse := by
      simp
    rw [hrev, alookup_append, h2]
  · rw [e0, mergedFold_fst m2 _,
        mergedFold_fst m1 (([], []) : FuncMap × List String)]
    show alookup (m2.foldl _ (m1.foldl _ [])) f = some v1
    rw [alookup_mergeFold]
    have hX : alookup (m1.foldl
        (fun a kv => if (alookup a kv.1).isSome then a else aset a kv.1 kv.2) []) f
        = some v1 := by
      rw [alookup_mergeFold]
      simp [alookup, h1]
    rw [hX]
  · rw [e0]
    have hmem : f ∈ akeys m2 := by
      have := mem_akeys_of_alookup m2.reverse f v2 h2
      simpa [akeys] using this
    have hw := mergedFold_warn_hit m2 f hmem
      (m1.foldl mergedStep (([], []) : FuncMap × List String)) hsome
    intro hnil
    rw [hnil] at hw
    simp at hw

/-- Witness for C4's amended statement at concrete factories `f ↦ ONE`
and `f ↦ TWO`. -/
theorem c4_function_shadowing_amended_witness :
    alookup (attachFuncs ⟨[], []⟩ [some [("f", ⟨"ONE"⟩)], some [("f", ⟨"TWO"⟩)]]).funcs "f"
        = some ⟨"TWO"⟩
    ∧ alookup (mergedFuncMap [some [("f", ⟨"ONE"⟩)], some [("f", ⟨"TWO"⟩)]]).1 "f"
        = some ⟨"ONE"⟩
    ∧ (mergedFuncMap [some [("f", ⟨"ONE"⟩)], some [("f", ⟨"TWO"⟩)]]).2 ≠ [] :=
  c4_function_shadowing_amended ⟨[], []⟩ [("f", ⟨"ONE"⟩)] [("f", ⟨"TWO"⟩)] "f"
    ⟨"ONE"⟩ ⟨"TWO"⟩ (by decide) (by decide)

/-! ### C5 support: every non-panicking call ends in a success or a 500 -/

theorem htmlAfterReload_shape {α : Type} (r1 : Render) (isRW hasReq : Bool)
    (name : String) (data : Option (AList α)) (o : RenderOptions) :
    (Render.htmlAfterReload r1 isRW hasReq name data o).panicMsg = none
    ∧ ((∃ status body,
          (Render.htmlAfterReload r1 isRW hasReq name data o).events
            = successEvents isRW status body)
       ∨ (∃ msg,
          (Render.htmlAfterReload r1 isRW hasReq name data o).events
            = textErrorEvents isRW msg 500)) := by
  cases hL : alookup r1.tpls o.layout with
  | none =>
    rw [htmlAfterReload_noLayout r1 isRW hasReq name data o hL]
    exact ⟨rfl, Or.inr ⟨noLayoutMsg r1.tpls name, rfl⟩⟩
  | some m =>
    cases hn : alookup m name with
    | none =>
      rw [htmlAfterReload_noTemplate r1 isRW hasReq name data o m hL hn]
      exact ⟨rfl, Or.inr ⟨noTemplateMsg r1.tpls name, rfl⟩⟩
    | some tpl =>
      rw [htmlAfterReload_found r1 isRW hasReq name data o m tpl hL hn]
      cases hexec : ((if isRW && hasReq then attachFuncs tpl r1.funcs else tpl).executeTemplate
          (o.layout ++ ".html")) with
      | error e =>
        simp only [hexec]
        exact ⟨by trivial, Or.inr ⟨e, by trivial⟩⟩
      | ok out =>
        simp only [hexec]
        exact ⟨by trivial, Or.inl ⟨o.statusCode, out, by trivial⟩⟩

/-- C5 counterexample: after a successful `New` (reload mode, over a valid
directory), adding `notes.txt` — a disallowed extension — to the directory
makes the next `HTML` call panic (the `extractNameFromPath` panic),
refuting the unconditional no-panic claim. -/
theorem c5_reload_bad_extension_panics :
    ((Render.new [] true fsBase).map (fun r =>
        (r.html fsBadExt true true "index" (none : Option (AList Unit)) []).panicMsg))
      = some (some "seatbelt/render: template notes.txt must end in .html, got .txt") := by
  set_option maxRecDepth 100000 in
  decide

/-- C5 amended: `HTML` never panics provided that, when reload is enabled,
every file in the directory at call time passes the extension check of
both walks (`FS.noPanicFiles`); with reload disabled it never panics for
any directory state.  Every call then either succeeds or writes a
deterministic plain-text 500 error response.  (A freshly added file with
a disallowed extension in reload mode does panic — the counterexample.) -/
theorem c5_no_panic_amended {α : Type} (r : Render) (fs : FS) (isRW hasReq : Bool)
    (name : String) (data : Option (AList α)) (opts : List RenderOptions)
    (hsafe : r.reload = true → fs.noPanicFiles = true) :
    (r.html fs isRW hasReq name data opts).panicMsg = none
    ∧ ((∃ status body,
          (r.html fs isRW hasReq name data opts).events = successEvents isRW status body)
       ∨ (∃ msg,
          (r.html fs isRW hasReq name data opts).events = textErrorEvents isRW msg 500)) := by
  cases hrel : r.reload with
  | false =>
    rw [html_static r fs isRW hasReq name data opts hrel]
    exact htmlAfterReload_shape r isRW hasReq name data _
  | true =>
    cases hp : parseTemplates r.funcs r.tpls fs with
    | panicked msg =>
      exact absurd hp (parseTemplates_not_panicked r.funcs r.tpls fs (hsafe hrel) msg)
    | ok t =>
      rw [html_reload r fs isRW hasReq name data opts t hrel hp]
      exact htmlAfterReload_shape _ isRW hasReq name data _
    | err msg t =>
      rw [html_reload_err r fs isRW hasReq name data opts msg t hrel hp]
      exact htmlAfterReload_shape _ isRW hasReq name data _

/-- Witness for C5's amended statement: a static-mode renderer never
panics and produces a success or a 500 text error. -/
theorem c5_no_panic_amended_witness :
    (rStatic.html (⟨[]⟩ : FS) true true "index" (none : Option (AList Unit)) []).panicMsg = none
    ∧ ((∃ status body,
          (rStatic.html (⟨[]⟩ : FS) true true "index" (none : Option (AList Unit)) []).events
            = successEvents true status body)
       ∨ (∃ msg,
          (rStatic.html (⟨[]⟩ : FS) true true "index" (none : Option (AList Unit)) []).events
            = textErrorEvents true msg 500)) :=
  c5_no_panic_amended rStatic ⟨[]⟩ true true "index" none []
    (fun h => Bool.noConfusion h)

/-- C1: clone isolation.  Part one: the composed template for (L, A) in a
rebuilt cache does not depend on the text of a different content file
(path `pB`, content name `Bn ≠ A`) — replacing that file's content leaves
the (L, A) entry unchanged, for any starting cache `t0`.  Part two: in
static mode, re-rendering (L, A) after (L, B) has been rendered produces
byte-identical output events to the first render of (L, A). -/
theorem c1_clone_isolation {α : Type} (funcs : List (Option Factory)) (t0 : Tpls)
    (fs : FS) (pB : String) (cB' : FileContent) (A Bn L : String)
    (lm : AList Template) (tf tf' : Tpls)
    (hch : extractNameFromPath "." pB true = .ok Bn)
    (hABn : A ≠ Bn)
    (hnl : sStartsWith pB "layouts/" = false)
    (hlf : layoutFold fs (baseTemplate funcs) []
        (fs.files.filter (fun pc => sStartsWith pc.1 "layouts/")) = .ok lm)
    (hhasL : (alookup lm L).isSome = true)
    (hp : parseTemplates funcs t0 fs = .ok tf)
    (hp' : parseTemplates funcs t0 (fs.withFile pB cB') = .ok tf') :
    alookup2 tf L A = alookup2 tf' L A
    ∧ (∀ (r : Render) (fsr : FS) (isRW hasReq : Bool) (data : Option (AList α))
        (opts : List RenderOptions) (B : String), r.reload = false → A ≠ B →
        (((r.html fsr isRW hasReq A data opts).st.html fsr isRW hasReq B data opts).st.html
            fsr isRW hasReq A data opts).events
          = (r.html fsr isRW hasReq A data opts).events) := by
  constructor
  · obtain ⟨ltpl, hL⟩ : ∃ ltpl, alookup lm L = some ltpl := by
      cases hLk : alookup lm L with
      | none =>
        rw [hLk] at hhasL
        exact Bool.noConfusion hhasL
      | some x => exact ⟨x, rfl⟩
    have hnd : (akeys lm).Nodup :=
      layoutFold_nodup fs _ (baseTemplate funcs) [] lm hlf (by simp [akeys])
    have hcf : contentFold lm t0 fs.files = .ok tf := by
      unfold parseTemplates at hp
      rw [hlf] at hp
      exact hp
    have hlf' : layoutFold (fs.withFile pB cB') (baseTemplate funcs) []
        ((fs.withFile pB cB').files.filter (fun pc => sStartsWith pc.1 "layouts/"))
        = .ok lm := by
      rw [filter_withFile_layouts fs pB cB' hnl, layoutFold_withFile fs pB cB' hnl]
      exact hlf
    have hcf' : contentFold lm t0 (fs.withFile pB cB').files = .ok tf' := by
      unfold parseTemplates at hp'
      rw [hlf'] at hp'
      exact hp'
    rw [contentFold_lookup lm hnd L ltpl hL A fs.files t0 tf hcf,
        contentFold_lookup lm hnd L ltpl hL A (fs.withFile pB cB').files t0 tf' hcf',
        lastContentDefs_withFile fs pB cB' Bn A hch (fun hh => hABn hh.symm)]
  · intro r fsr isRW hasReq data opts B hrel hAB
    exact rerender_static r fsr isRW hasReq A B data opts hrel hAB

/-- Witness for C1: replacing `about.html`'s text in `fsTwo` leaves the
(`layout`, `index`) entry untouched, and over the `fsBase` cache the
sequence render `index`, render `other`, render `index` yields the same
events for the third call as for the first. -/
theorem c1_clone_isolation_witness :
    alookup2 tfTwo "layout" "index" = alookup2 tfTwoB "layout" "index"
    ∧ (((rStatic.html (⟨[]⟩ : FS) true true "index" (none : Option (AList Unit)) []).st.html
          (⟨[]⟩ : FS) true true "other" (none : Option (AList Unit)) []).st.html
          (⟨[]⟩ : FS) true true "index" (none : Option (AList Unit)) []).events
      = (rStatic.html (⟨[]⟩ : FS) true true "index" (none : Option (AList Unit)) []).events := by
  set_option maxRecDepth 1000000 in
  have h := c1_clone_isolation (α := Unit) [] [] fsTwo "about.html" cChanged
    "index" "about" "layout" lmTwo tfTwo tfTwoB
    (by decide) (by decide) (by decide) (by decide) (by decide) (by decide) (by decide)
  exact ⟨h.1, h.2 rStatic ⟨[]⟩ true true none [] "other" (by decide) (by decide)⟩

/-! ### C3 support: every layout's content list is the same -/

theorem setAll_uniform (lm : AList Template) (hnd : (akeys lm).Nodup)
    (t : Tpls) (n : String) (ds : Defs)
    (hInv : t = [] ∨
      ((∀ X, (alookup t X).isSome ↔ (alookup lm X).isSome)
       ∧ (∀ X1 n1 X2 n2, alookup t X1 = some n1 → alookup t X2 = some n2 →
            akeys n1 = akeys n2))) :
    (∀ X, (alookup (setAll lm t n ds) X).isSome ↔ (alookup lm X).isSome)
    ∧ (∀ X1 n1 X2 n2, alookup (setAll lm t n ds) X1 = some n1 →
        alookup (setAll lm t n ds) X2 = some n2 → akeys n1 = akeys n2) := by
  have hnone : ∀ X, alookup lm X = none → alookup t X = none := by
    intro X hX
    rcases hInv with h | h
    · rw [h]; rfl
    · cases ht : alookup t X with
      | none => rfl
      | some u =>
        have h1 : (alookup t X).isSome = true := by rw [ht]; rfl
        rw [h.1 X, hX] at h1
        exact Bool.noConfusion h1
  constructor
  · intro X
    rw [alookup_setAll lm hnd t n ds X]
    cases hX : alookup lm X with
    | some ltpl => simp
    | none => simp [hnone X hX]
  · intro X1 n1 X2 n2 h1 h2
    rw [alookup_setAll lm hnd t n ds X1] at h1
    rw [alookup_setAll lm hnd t n ds X2] at h2
    cases hX1 : alookup lm X1 with
    | none =>
      rw [hX1] at h1
      rw [hnone X1 hX1] at h1
      exact Option.noConfusion h1
    | some l1 =>
      cases hX2 : alookup lm X2 with
      | none =>
        rw [hX2] at h2
        rw [hnone X2 hX2] at h2
        exact Option.noConfusion h2
      | some l2 =>
        rw [hX1] at h1
        rw [hX2] at h2
        replace h1 : aset ((alookup t X1).getD []) n (l1.clone.parseDefs ds) = n1 :=
          Option.some.inj h1
        replace h2 : aset ((alookup t X2).getD []) n (l2.clone.parseDefs ds) = n2 :=
          Option.some.inj h2
        have hbase : akeys ((alookup t X1).getD []) = akeys ((alookup t X2).getD []) := by
          rcases hInv with h | h
          · rw [h]; rfl
          · cases ht1 : alookup t X1 with
            | none =>
              have hs : (alookup t X1).isSome = true := by
                rw [h.1 X1, hX1]; rfl
              rw [ht1] at hs
              exact Bool.noConfusion hs
            | some u1 =>
              cases ht2 : alookup t X2 with
              | none =>
                have hs : (alookup t X2).isSome = true := by
                  rw [h.1 X2, hX2]; rfl
                rw [ht2] at hs
                exact Bool.noConfusion hs
              | some u2 =>
                exact h.2 X1 u1 X2 u2 ht1 ht2
        rw [← h1, ← h2, akeys_aset, akeys_aset, hbase]

theorem contentFold_uniform (lm : AList Template) (hnd : (akeys lm).Nodup) :
    ∀ (files : List (String × FileContent)) (t tf : Tpls),
      contentFold lm t files = .ok tf →
      (t = [] ∨
        ((∀ X, (alookup t X).isSome ↔ (alookup lm X).isSome)
         ∧ (∀ X1 n1 X2 n2, alookup t X1 = some n1 → alookup t X2 = some n2 →
              akeys n1 = akeys n2))) →
      (tf = [] ∨
        ((∀ X, (alookup tf X).isSome ↔ (alookup lm X).isSome)
         ∧ (∀ X1 n1 X2 n2, alookup tf X1 = some n1 → alookup tf X2 = some n2 →
              akeys n1 = akeys n2))) := by
  intro files
  induction files with
  | nil =>
    intro t tf h hInv
    replace h : POut.ok t = POut.ok tf := h
    cases h
    exact hInv
  | cons pc rest ih =>
    intro t tf h hInv
    obtain ⟨p, c⟩ := pc
    cases hex : extractNameFromPath "." p true with
    | error msg =>
      simp only [contentFold, hex] at h
      exact POut.noConfusion h
    | ok n =>
      simp only [contentFold, hex] at h
      by_cases hlay : sStartsWith n "layouts" = true
      · rw [if_pos hlay] at h
        exact ih t tf h hInv
      · rw [if_neg hlay] at h
        cases c with
        | parseError msg => exact POut.noConfusion h
        | ok ds =>
          exact ih (setAll lm t n ds) tf h (Or.inr (setAll_uniform lm hnd t n ds hInv))

/-- The caches `New` builds assign every layout the same content list. -/
theorem new_uniform (funcs : List (Option Factory)) (reload : Bool) (fs : FS)
    (r : Render) (hnew : Render.new funcs reload fs = some r) :
    ∀ X1 n1 X2 n2, alookup r.tpls X1 = some n1 → alookup r.tpls X2 = some n2 →
      akeys n1 = akeys n2 := by
  unfold Render.new at hnew
  cases hp : parseTemplates funcs [] fs with
  | err msg t =>
    rw [hp] at hnew
    exact Option.noConfusion hnew
  | panicked msg =>
    rw [hp] at hnew
    exact Option.noConfusion hnew
  | ok t =>
    rw [hp] at hnew
    replace hnew := Option.some.inj hnew
    have htpls : r.tpls = t := by rw [← hnew]
    unfold parseTemplates at hp
    cases hl : layoutFold fs (baseTemplate funcs) []
        (fs.files.filter (fun pc => sStartsWith pc.1 "layouts/")) with
    | err msg =>
      rw [hl] at hp
      exact POut.noConfusion hp
    | panicked msg =>
      rw [hl] at hp
      exact POut.noConfusion hp
    | ok lm =>
      rw [hl] at hp
      have hnd : (akeys lm).Nodup :=
        layoutFold_nodup fs _ (baseTemplate funcs) [] lm hl (by simp [akeys])
      have hu := contentFold_uniform lm hnd fs.files [] t hp (Or.inl rfl)
      intro X1 n1 X2 n2 h1 h2
      rw [htpls] at h1 h2
      rcases hu with hu | hu
      · rw [hu] at h1
        exact Option.noConfusion h1
      · exact hu.2 X1 n1 X2 n2 h1 h2

/-- C3: a render call over a `New`-built cache naming a known layout but
an unknown content name writes exactly a plain-text 500 whose body
contains the problem content name and the comma-joined list of valid
content names for that layout. -/
theorem c3_missing_content_error {α : Type} (funcs : List (Option Factory))
    (fs fsAt : FS) (r : Render) (isRW hasReq : Bool) (A : String)
    (data : Option (AList α)) (opts : List RenderOptions) (o : RenderOptions)
    (m : AList Template)
    (hnew : Render.new funcs false fs = some r)
    (ho : o = (opts.foldl (fun _ x => x) ⟨0, ""⟩).setDefaults)
    (hL : alookup r.tpls o.layout = some m)
    (hA : alookup m A = none) :
    (r.html fsAt isRW hasReq A data opts).events
      = textErrorEvents isRW (noTemplateMsg r.tpls A) 500
    ∧ strContainsB (noTemplateMsg r.tpls A) A
    ∧ strContainsB (noTemplateMsg r.tpls A) (sjoin "," (akeys m)) := by
  have hrel : r.reload = false := by
    unfold Render.new at hnew
    cases hp : parseTemplates funcs [] fs with
    | err msg t => rw [hp] at hnew; exact Option.noConfusion hnew
    | panicked msg => rw [hp] at hnew; exact Option.noConfusion hnew
    | ok t =>
      rw [hp] at hnew
      replace hnew := Option.some.inj hnew
      rw [← hnew]
  refine ⟨?_, ?_, ?_⟩
  · rw [html_static r fsAt isRW hasReq A data opts hrel, ← ho,
        htmlAfterReload_noTemplate r isRW hasReq A data o m hL hA]
  · unfold noTemplateMsg
    exact strContains_extend _ _ _ (strContains_mid "seatbelt/render: no template named \"" A
      ("\", defined templates are: "))
  · unfold noTemplateMsg
    refine strContains_extendL _ _ _ ?_
    unfold definedTemplates
    cases htp : r.tpls with
    | nil =>
      rw [htp] at hL
      exact absurd hL (by simp [alookup])
    | cons hd rest =>
      obtain ⟨L0, m0⟩ := hd
      have hm0 : alookup ((L0, m0) :: rest) L0 = some m0 := by simp [alookup]
      have hkeys : akeys m0 = akeys m := by
        refine new_uniform funcs false fs r hnew L0 m0 o.layout m ?_ ?_
        · rw [htp]; exact hm0
        · exact hL
      show strContainsB
        ("layouts: " ++ sjoin "," (akeys ((L0, m0) :: rest)) ++ ", templates: " ++
          sjoin "," (akeys m0))
        (sjoin "," (akeys m))
      rw [hkeys]
      exact strContains_suffix _ _

/-- Witness for C3: the `fsBase`-built renderer, rendering the unknown
content name `missing` under the known layout `layout`. -/
theorem c3_missing_content_error_witness :
    (rNewBase.html fsBase true true "missing" (none : Option (AList Unit)) []).events
      = textErrorEvents true (noTemplateMsg rNewBase.tpls "missing") 500
    ∧ strContainsB (noTemplateMsg rNewBase.tpls "missing") "missing"
    ∧ strContainsB (noTemplateMsg rNewBase.tpls "missing")
        (sjoin "," (akeys ((alookup rNewBase.tpls "layout").getD []))) := by
  set_option maxRecDepth 1000000 in
  exact c3_missing_content_error (α := Unit) [] fsBase fsBase rNewBase true true
    "missing" none [] ⟨200, "layout"⟩ ((alookup rNewBase.tpls "layout").getD [])
    (by decide) (by decide) (by decide) (by decide)

/-- C8: with reload enabled, a content file present on disk at call time
(`lastContentDefs` finds it, e.g. a file added after the cache was built —
the starting cache `r.tpls` is arbitrary) is composed under every layout
by the rebuild and renders on that call; with reload disabled, `HTML`
never consults the disk — its result is the same for every directory
state — and a name absent from the cache yields the no-template 500. -/
theorem c8_hot_reload_visibility {α : Type}
    (r : Render) (fs : FS) (isRW hasReq : Bool) (newName : String)
    (data : Option (AList α)) (opts : List RenderOptions) (o : RenderOptions)
    (lm : AList Template) (ltpl : Template) (ds : Defs) (tf : Tpls) (out : String)
    (hrel : r.reload = true)
    (ho : o = (opts.foldl (fun _ x => x) ⟨0, ""⟩).setDefaults)
    (hlf : layoutFold fs (baseTemplate r.funcs) []
        (fs.files.filter (fun pc => sStartsWith pc.1 "layouts/")) = .ok lm)
    (hL : alookup lm o.layout = some ltpl)
    (hcf : contentFold lm r.tpls fs.files = .ok tf)
    (hnew : lastContentDefs fs.files newName = some ds)
    (hexec : ((if isRW && hasReq then attachFuncs (ltpl.clone.parseDefs ds) r.funcs
          else ltpl.clone.parseDefs ds)).executeTemplate (o.layout ++ ".html") = .ok out) :
    alookup2 tf o.layout newName = some (ltpl.clone.parseDefs ds)
    ∧ (r.html fs isRW hasReq newName data opts).events = successEvents isRW o.statusCode out
    ∧ (∀ (r' : Render) (fs1 fs2 : FS), r'.reload = false →
        r'.html fs1 isRW hasReq newName data opts = r'.html fs2 isRW hasReq newName data opts)
    ∧ (∀ (r' : Render) (m' : AList Template), r'.reload = false →
        alookup r'.tpls o.layout = some m' → alookup m' newName = none →
        (r'.html fs isRW hasReq newName data opts).events =
          textErrorEvents isRW (noTemplateMsg r'.tpls newName) 500) := by
  have hnd : (akeys lm).Nodup :=
    layoutFold_nodup fs _ (baseTemplate r.funcs) [] lm hlf (by simp [akeys])
  have hvis : alookup2 tf o.layout newName = some (ltpl.clone.parseDefs ds) := by
    have h2 := contentFold_lookup lm hnd o.layout ltpl hL newName fs.files r.tpls tf hcf
    rw [hnew] at h2
    exact h2
  have hp : parseTemplates r.funcs r.tpls fs = .ok tf := by
    unfold parseTemplates
    rw [hlf]
    exact hcf
  refine ⟨hvis, ?_, ?_, ?_⟩
  · rw [html_reload r fs isRW hasReq newName data opts tf hrel hp, ← ho]
    unfold alookup2 at hvis
    cases hm : alookup tf o.layout with
    | none =>
      rw [hm] at hvis
      exact Option.noConfusion hvis
    | some m =>
      rw [hm] at hvis
      replace hvis : alookup m newName = some (ltpl.clone.parseDefs ds) := hvis
      rw [htmlAfterReload_found { r with tpls := tf } isRW hasReq newName data o m
          (ltpl.clone.parseDefs ds) hm hvis]
      simp only [hexec]
  · intro r' fs1 fs2 h
    rw [html_static r' fs1 isRW hasReq newName data opts h,
        html_static r' fs2 isRW hasReq newName data opts h]
  · intro r' m' h hm' hn'
    rw [html_static r' fs isRW hasReq newName data opts h, ← ho,
        htmlAfterReload_noTemplate r' isRW hasReq newName data o m' hm' hn']

/-- Witness for C8 at `fsTwo`: a reload renderer with an empty starting
cache renders the content `about` present on disk; the cache the rebuild
produces contains its composition with the layout. -/
theorem c8_hot_reload_visibility_witness :
    alookup2 tfTwo "layout" "about" = some (ltplTwo.clone.parseDefs dsAbout)
    ∧ (rReload.html fsTwo true true "about" (none : Option (AList Unit)) []).events
        = successEvents true 200 "<html><p>about</p></html>"
    ∧ (rNewBase.html fsTwo true true "about" (none : Option (AList Unit)) []).events
        = textErrorEvents true (noTemplateMsg rNewBase.tpls "about") 500 := by
  set_option maxRecDepth 1000000 in
  have h := c8_hot_reload_visibility (α := Unit) rReload fsTwo true true "about"
    none [] ⟨200, "layout"⟩ lmTwo ltplTwo dsAbout tfTwo "<html><p>about</p></html>"
    (by decide) (by decide) (by decide) (by decide) (by decide) (by decide) (by decide)
  set_option maxRecDepth 1000000 in
  exact ⟨h.1, h.2.1,
    h.2.2.2 rNewBase ((alookup rNewBase.tpls "layout").getD [])
      (by decide) (by decide) (by decide)⟩

/-- C2 (the code at the claim's failing input): rendering content
`"index"` with the unknown layout name `"missing"` writes status 500, but
the body interpolates the *content* name into `no layout named "%s"` —
it contains `"index"` and the known-layout enumeration, not `"missing"`. -/
theorem c2_unknown_layout_names_content :
    ((Render.new [] false fsBase).map (fun r =>
        (r.html fsBase true true "index" (none : Option (AList Unit)) [⟨0, "missing"⟩]).events))
      = some (textErrorEvents true msgNoLayout 500)
    ∧ ¬ strContainsB msgNoLayout "missing"
    ∧ strContainsB msgNoLayout "index"
    ∧ strContainsB msgNoLayout "layouts: layout" := by
  set_option maxRecDepth 100000 in
  refine ⟨by decide, by decide, by decide, by decide⟩

/-- C6 (the code at the claim's failing input): in reload mode, the
unknown-layout error path of `HTML` returns with the mutual-exclusion lock
still held (`locked = true`), after writing the 500 text response. -/
theorem c6_lock_held_on_unknown_layout :
    (rReload.html fsBase true true "index" (none : Option (AList Unit)) [⟨0, "missing"⟩]).st.locked
        = true
    ∧ (rReload.html fsBase true true "index" (none : Option (AList Unit)) [⟨0, "missing"⟩]).events
        = textErrorEvents true msgNoLayout 500
    ∧ (rReload.html fsBase true true "index" (none : Option (AList Unit)) []).st.locked
        = false := by
  set_option maxRecDepth 100000 in
  refine ⟨by decide, by decide, by decide⟩

end Seatbelt
